import Mathlib

/-!
# zhandlers / rabbitmq : retry and dead-letter routing

A shallow embedding of `rabbitmq/rabbitmq.go`.

* Go `int` is a signed 64-bit integer: values are `Int`, the one addition of the
  source (`payload.RetryCount + 1`) wraps through `wrapInt`.
* A Go `map[string]T` is an association list read with `List.lookup`; a missing
  key reads as the zero value of `T`.
* A run-time panic (nil dereference, explicit `panic`) is the `panicked` outcome.
* Calls into the broker libraries are recorded in a trace; their results come
  from a behaviour argument over which the theorems quantify.
* Functions and constants declared outside `rabbitmq.go` are fields of `Externals`.
-/

namespace rabbitmq

/-! ## Data model -/

/-- Go `error` values that are not nil. -/
abbrev Error := String

/-- Go `[]byte`. -/
abbrev Bytes := List Nat

/-- Go `map[string]string`, the headers of an event. -/
abbrev Headers := List (String × String)

/-- Go `context.Context`, an identity only. -/
abbrev Context := Nat

/-- Go `amqp.Table` restricted to string values; `none` is the nil table. -/
abbrev Table := List (String × String)

/-- Go `ziggurat.ProcessStatus`, an integer type. -/
abbrev ProcessStatus := Int

/-- The anonymous struct the values of `QueueConfig` point to. -/
structure RouteConfig where
  RetryCount : Int
  DelayQueueExpirationInMS : String
deriving DecidableEq, Repr

/-- Go `QueueConfig`, `map[string]*struct{...}`: a value may be a nil pointer. -/
abbrev QueueConfig := List (String × Option RouteConfig)

/-- Reading `queueConfig[k]`: the pointer stored under `k`, nil when `k` is absent. -/
def QueueConfig.entry (q : QueueConfig) (k : String) : Option RouteConfig :=
  (List.lookup k q).join

/-- The keys a `range` over the map enumerates (in some order). -/
def QueueConfig.routes (q : QueueConfig) : List String := q.map Prod.fst

/-- Range of the Go `int` type. -/
def isInt (x : Int) : Prop := -9223372036854775808 ≤ x ∧ x ≤ 9223372036854775807

instance (x : Int) : Decidable (isInt x) := by unfold isInt; infer_instance

/-- Two's complement wrap-around of Go `int` arithmetic. -/
def wrapInt (x : Int) : Int :=
  (x + 9223372036854775808) % 18446744073709551616 - 9223372036854775808

/-- Modelled from the spec: the struct `RabbitMQPayload` is declared outside the two
source files; its fields are the ones `retry` assigns (the retry envelope: original
value, original headers, retry count). -/
structure RabbitMQPayload where
  MessageVal : Bytes
  MessageHeaders : Headers
  ctx : Context
  RetryCount : Int
deriving DecidableEq, Repr

/-- A `ziggurat.Event`: either a `RabbitMQPayload` (the type assertion
`event.(RabbitMQPayload)` succeeds) or any other implementation of the interface. -/
inductive Event where
  | payload (p : RabbitMQPayload)
  | plain (value : Bytes) (headers : Headers) (ctx : Context)
deriving DecidableEq, Repr

/-- Modelled from the spec: the `Event` methods of `RabbitMQPayload` are declared outside
the two source files; the envelope carries the message's original value. -/
def Event.Value : Event → Bytes
  | .payload p => p.MessageVal
  | .plain v _ _ => v

/-- Modelled from the spec: the `Event` methods of `RabbitMQPayload` are declared outside
the two source files; the envelope carries the message's original headers. -/
def Event.Headers : Event → Headers
  | .payload p => p.MessageHeaders
  | .plain _ h _ => h

/-- The context of an event. -/
def Event.Context : Event → Context
  | .payload p => p.ctx
  | .plain _ _ c => c

/-- Go `amqp.Publishing`, the fields `retry` sets. -/
structure Publishing where
  Expiration : String
  Body : Bytes
deriving DecidableEq, Repr

/-- Go `publisher.Message`. -/
structure Message where
  Exchange : String
  Publishing : Publishing
deriving DecidableEq, Repr

/-- What is declared outside `rabbitmq.go`: the ziggurat constants and the helper
functions of the package. -/
structure Externals where
  HeaderMessageRoute : String
  RetryMessage : ProcessStatus
  constructExchangeName : String → String → String
  constructQueueName : String → String → String
  encodeMessage : RabbitMQPayload → Except Error Bytes

/-- Result of a Go call: it returns a value or it panics. -/
inductive Outcome (α : Type) where
  | returned (a : α)
  | panicked
deriving DecidableEq, Repr

/-- Go `*amqpextra.Dialer`, identified by the URLs it was built from. -/
structure Dialer where
  urls : List String
deriving DecidableEq, Repr

/-- Go `ziggurat.StructuredLogger`. -/
inductive Logger where
  | supplied (id : Nat)
  | standard (level : String)
deriving DecidableEq, Repr

/-- Go `ziggurat.Handler`. -/
abbrev Handler := Event → ProcessStatus

/-- Go `RabbitMQRetry`. -/
structure RabbitMQRetry where
  hosts : List String
  dialer : Option Dialer
  consumerDialer : Option Dialer
  handler : Option Handler
  queueConfig : QueueConfig
  logger : Logger

/-- Go `NewRabbitRetrier`. -/
def NewRabbitRetrier (hosts : List String) (queueConfig : QueueConfig)
    (logger : Option Logger) : RabbitMQRetry :=
  { hosts := hosts
    dialer := none
    consumerDialer := none
    handler := none
    queueConfig := queueConfig
    logger := match logger with
      | some l => l
      | none => Logger.standard "info" }

/-! ## The retry path -/

/-- What a run of the handler does to the outside world, in order. -/
inductive Effect where
  | handlerCall (e : Event)
  | acquire (ctx : Context)
  | encode (p : RabbitMQPayload)
  | publish (m : Message)
  | pubClose
  | logError (msg : String) (err : Option Error)
deriving DecidableEq, Repr

/-- Behaviour of the publisher side of the broker library during one retry. -/
structure PublisherBehaviour where
  Publisher : Option Error
  Publish : Message → Option Error

/-- Lines 100-111 of `retry`: the envelope of an event. -/
def envelope (event : Event) : RabbitMQPayload :=
  match event with
  | .payload eventCast => eventCast
  | .plain _ _ _ =>
    { MessageVal := event.Value
      MessageHeaders := event.Headers
      ctx := event.Context
      RetryCount := 0 }

/-- Line 100 of `retry`: the route name read from the headers, the empty string when
the header is missing. -/
def routeNameOf (X : Externals) (event : Event) : String :=
  (List.lookup X.HeaderMessageRoute event.Headers).getD ""

/-- Lines 113-120 of `retry`: exchange, expiration and envelope to encode. A nil entry
of the queue configuration is dereferenced, which panics. -/
def route (X : Externals) (queueConfig : QueueConfig) (routeName : String)
    (payload : RabbitMQPayload) : Outcome (String × String × RabbitMQPayload) :=
  match queueConfig.entry routeName with
  | none => .panicked
  | some limit =>
    if payload.RetryCount ≥ limit.RetryCount then
      .returned (X.constructExchangeName routeName "dead_letter", "", payload)
    else
      match queueConfig.entry routeName with
      | none => .panicked
      | some delay =>
        .returned (X.constructExchangeName routeName "delay",
          delay.DelayQueueExpirationInMS,
          { payload with RetryCount := wrapInt (payload.RetryCount + 1) })

/-- Go `(*RabbitMQRetry).retry`: the outcome and the trace of effects. The deferred
`pub.Close()` runs on every exit after the acquisition, a panic included. -/
def retry (X : Externals) (r : RabbitMQRetry) (b : PublisherBehaviour) (event : Event) :
    Outcome (Option Error) × List Effect :=
  match r.dialer with
  | none => (.panicked, [])
  | some _ =>
    match b.Publisher with
    | some pubCreateError => (.returned (some pubCreateError), [.acquire event.Context])
    | none =>
      match route X r.queueConfig (routeNameOf X event) (envelope event) with
      | .panicked => (.panicked, [.acquire event.Context, .pubClose])
      | .returned (exchange, expiration, payload) =>
        match X.encodeMessage payload with
        | .error err =>
          (.returned (some err), [.acquire event.Context, .encode payload, .pubClose])
        | .ok buff =>
          let message : Message :=
            { Exchange := exchange, Publishing := { Expiration := expiration, Body := buff } }
          (.returned (b.Publish message),
            [.acquire event.Context, .encode payload, .publish message, .pubClose])

/-- Go `(*RabbitMQRetry).Retrier`, applied to a handler and then to an event. -/
def Retrier (X : Externals) (r : RabbitMQRetry) (b : PublisherBehaviour)
    (handler : Handler) (messageEvent : Event) : Outcome ProcessStatus × List Effect :=
  match r.dialer with
  | none => (.panicked, [])
  | some _ =>
    let status := handler messageEvent
    if status = X.RetryMessage then
      match retry X r b messageEvent with
      | (.returned err, trace) =>
        (.returned status,
          .handlerCall messageEvent :: trace ++ [.logError "error retrying message" err])
      | (.panicked, trace) => (.panicked, .handlerCall messageEvent :: trace)
    else
      (.returned status, [.handlerCall messageEvent])

/-- Go `(*RabbitMQRetry).HandleEvent`: the call through the nil `handler` field panics. -/
def HandleEvent (X : Externals) (r : RabbitMQRetry) (b : PublisherBehaviour)
    (event : Event) : Outcome ProcessStatus × List Effect :=
  match r.handler with
  | none => (.panicked, [])
  | some handler =>
    let status := handler event
    if status = X.RetryMessage then
      match retry X r b event with
      | (.returned err, trace) =>
        (.returned status,
          .handlerCall event :: trace ++ [.logError "error retrying message" err])
      | (.panicked, trace) => (.panicked, .handlerCall event :: trace)
    else
      (.returned status, [.handlerCall event])

/-! ## Start-up: topology provisioning and consumers -/

/-- Calls made during start-up. The channel operations that remove topology belong to
the interface of the broker channel and are listed to state that none is issued. -/
inductive BrokerOp where
  | logInfo (msg : String) (hosts : String)
  | newDialer (urls : List String)
  | connection
  | channel
  | exchangeDeclare (name kind : String) (durable autoDelete internal noWait : Bool)
      (args : Option Table)
  | queueDeclare (name : String) (durable autoDelete exclusive noWait : Bool)
      (args : Option Table)
  | queueBind (name key exchange : String) (noWait : Bool) (args : Option Table)
  | exchangeDelete (name : String)
  | queueDelete (name : String)
  | queueUnbind (name key exchange : String)
  | channelClose
  | connectionClose
  | createConsumer (ctag queueName : String)
deriving DecidableEq, Repr

/-- A call together with the error it returned (`none` for success). -/
abbrev Call := BrokerOp × Option Error

/-- Behaviour of the broker during start-up: the result of a call, given every call
made before it and its result. -/
abbrev BrokerBehaviour := List Call → BrokerOp → Option Error

/-- Go `amqp.ExchangeFanout`. -/
def ExchangeFanout : String := "fanout"

/-- Line 160 of `initPublisher`. -/
def queueTypes : List String := ["instant", "delay", "dead_letter"]

/-- An exchange declaration, a queue declaration or a queue binding. -/
def BrokerOp.isDeclareOrBind : BrokerOp → Bool
  | .exchangeDeclare .. => true
  | .queueDeclare .. => true
  | .queueBind .. => true
  | _ => false

/-- An operation that removes an exchange, a queue or a binding. -/
def BrokerOp.isDelete : BrokerOp → Bool
  | .exchangeDelete .. => true
  | .queueDelete .. => true
  | .queueUnbind .. => true
  | _ => false

/-- Lines 164-179 of `initPublisher`, the body of the inner loop for one route: the
error that ends the function if there is one, the extended trace, and the value of the
variable `args` after the iteration. -/
def declareRoute (X : Externals) (b : BrokerBehaviour) (queueType route : String)
    (args : Option Table) (trace : List Call) : Option Error × List Call × Option Table :=
  let args := if queueType = "delay" then
      some [("x-dead-letter-exchange", X.constructExchangeName route "instant")]
    else args
  let exchangeName := X.constructExchangeName route queueType
  let exchangeDeclare := BrokerOp.exchangeDeclare exchangeName ExchangeFanout true false
    false false none
  match b trace exchangeDeclare with
  | some exchangeDeclareErr =>
    (some exchangeDeclareErr, trace ++ [(exchangeDeclare, some exchangeDeclareErr)], args)
  | none =>
    let trace := trace ++ [(exchangeDeclare, none)]
    let queueName := X.constructQueueName route queueType
    let queueDeclare := BrokerOp.queueDeclare queueName true false false false args
    match b trace queueDeclare with
    | some queueDeclareErr =>
      (some queueDeclareErr, trace ++ [(queueDeclare, some queueDeclareErr)], args)
    | none =>
      let trace := trace ++ [(queueDeclare, none)]
      let queueBind := BrokerOp.queueBind queueName "" exchangeName false args
      match b trace queueBind with
      | some bindErr => (some bindErr, trace ++ [(queueBind, some bindErr)], args)
      | none => (none, trace ++ [(queueBind, none)], args)

/-- Lines 163-180 of `initPublisher`, the inner loop over the routes in the order the
`range` over the map yields them. -/
def routeLoop (X : Externals) (b : BrokerBehaviour) (queueType : String) :
    List String → Option Table → List Call → Option Error × List Call
  | [], _, trace => (none, trace)
  | route :: rest, args, trace =>
    match declareRoute X b queueType route args trace with
    | (some err, trace, _) => (some err, trace)
    | (none, trace, args) => routeLoop X b queueType rest args trace

/-- Lines 161-181 of `initPublisher`, the outer loop over the queue types; `args` is
declared afresh (nil) in every iteration. `order queueType` is the order in which the
`range` over the queue configuration yields the routes during that iteration. -/
def tierLoop (X : Externals) (b : BrokerBehaviour) (order : String → List String) :
    List String → List Call → Option Error × List Call
  | [], trace => (none, trace)
  | queueType :: rest, trace =>
    match routeLoop X b queueType (order queueType) none trace with
    | (some err, trace) => (some err, trace)
    | (none, trace) => tierLoop X b order rest trace

/-- Go `(*RabbitMQRetry).initPublisher`: the retrier afterwards, the returned error and
the trace of calls. The deferred `channel.Close()` and `conn.Close()` run on every exit
after their registration. The goroutine that waits for the timeout is not modelled. -/
def initPublisher (X : Externals) (r : RabbitMQRetry) (b : BrokerBehaviour)
    (order : String → List String) : RabbitMQRetry × Option Error × List Call :=
  let t0 : List Call :=
    [(.logInfo "dialing rabbitmq server" (String.intercalate "," r.hosts), none)]
  match b t0 (.newDialer r.hosts) with
  | some cfgErr => (r, some cfgErr, t0 ++ [(.newDialer r.hosts, some cfgErr)])
  | none =>
    let r := { r with dialer := some { urls := r.hosts } }
    let t1 := t0 ++ [(.newDialer r.hosts, none)]
    match b t1 .connection with
    | some connErr => (r, some connErr, t1 ++ [(.connection, some connErr)])
    | none =>
      let t2 := t1 ++ [(.connection, none)]
      match b t2 .channel with
      | some chanErr =>
        let t3 := t2 ++ [(.channel, some chanErr)]
        (r, some chanErr, t3 ++ [(.connectionClose, b t3 .connectionClose)])
      | none =>
        let t3 := t2 ++ [(.channel, none)]
        match tierLoop X b order queueTypes t3 with
        | (err, t4) =>
          let t5 := t4 ++ [(.channelClose, b t4 .channelClose)]
          (r, err, t5 ++ [(.connectionClose, b t5 .connectionClose)])

/-- Go `(*RabbitMQRetry).RunPublisher`. -/
def RunPublisher (X : Externals) (r : RabbitMQRetry) (b : BrokerBehaviour)
    (order : String → List String) : RabbitMQRetry × Option Error × List Call :=
  initPublisher X r b order

/-- Lines 75-86 of `RunConsumers`, the loop over the routes. -/
def consumerLoop (X : Externals) (b : BrokerBehaviour) :
    List String → List Call → Option Error × List Call
  | [], trace => (none, trace)
  | routeName :: rest, trace =>
    let queueName := X.constructQueueName routeName "instant"
    let ctag := queueName ++ "_" ++ "ziggurat" ++ "_" ++ "ctag"
    match b trace (.createConsumer ctag queueName) with
    | some err => (some err, trace ++ [(.createConsumer ctag queueName, some err)])
    | none => consumerLoop X b rest (trace ++ [(.createConsumer ctag queueName, none)])

/-- Go `(*RabbitMQRetry).RunConsumers`. The handler is handed to `createConsumer` only;
the goroutines that log a closed consumer are not modelled. -/
def RunConsumers (X : Externals) (r : RabbitMQRetry) (b : BrokerBehaviour)
    (order : List String) (_handler : Handler) : RabbitMQRetry × Option Error × List Call :=
  match b [] (.newDialer r.hosts) with
  | some dialErr => (r, some dialErr, [(.newDialer r.hosts, some dialErr)])
  | none =>
    let r := { r with consumerDialer := some { urls := r.hosts } }
    match consumerLoop X b order [(.newDialer r.hosts, none)] with
    | (err, trace) => (r, err, trace)

/-! ## Sequences of operations -/

/-- The retry decision of `retry` applied `n` times in a row, each time to the envelope
the previous retry encoded, delivered again as a `RabbitMQPayload` event: the exchange,
the expiration and the encoded retry count of each publication. -/
def retrySequence (X : Externals) (q : QueueConfig) : Nat → Event → List (String × String × Int)
  | 0, _ => []
  | n + 1, event =>
    match route X q (routeNameOf X event) (envelope event) with
    | .panicked => []
    | .returned (exchange, expiration, payload) =>
      (exchange, expiration, payload.RetryCount) :: retrySequence X q n (.payload payload)

/-- The public operations of a retrier that can follow its construction. -/
inductive PublicOp where
  | runPublisher (b : BrokerBehaviour) (order : String → List String)
  | runConsumers (b : BrokerBehaviour) (order : List String) (handler : Handler)
  | retrier (b : PublisherBehaviour) (handler : Handler) (event : Event)

/-- The retrier after a public operation. `Retrier` and the handler it returns only
read the retrier. -/
def PublicOp.apply (X : Externals) (r : RabbitMQRetry) : PublicOp → RabbitMQRetry
  | .runPublisher b order => (RunPublisher X r b order).1
  | .runConsumers b order handler => (RunConsumers X r b order handler).1
  | .retrier _ _ _ => r

/-- A call that tried to create a dialer and failed. -/
def isFailedNewDialer : Call → Bool
  | (.newDialer _, some _) => true
  | _ => false

/-- The public operation, run on retrier `r`, is not a `RunPublisher` that gets past the
creation of the dialer: it is a `RunConsumers`, a `Retrier`, or a `RunPublisher` whose
`NewDialer` fails. -/
def PublicOp.createsNoDialer (X : Externals) (r : RabbitMQRetry) : PublicOp → Bool
  | .runPublisher b order => (RunPublisher X r b order).2.2.any isFailedNewDialer
  | .runConsumers _ _ _ => true
  | .retrier _ _ _ => true

/-- No operation of the sequence, run in order from retrier `r`, is a `RunPublisher` that
gets past the creation of the dialer. -/
def noDialerCreated (X : Externals) : RabbitMQRetry → List PublicOp → Bool
  | _, [] => true
  | r, op :: rest => op.createsNoDialer X r && noDialerCreated X (op.apply X r) rest

/-! ## Vocabulary of the statements -/

/-- An error-level log call. -/
def Effect.isLogError : Effect → Bool
  | .logError _ _ => true
  | _ => false

/-- The arguments a queue of a queue type is declared with for a route: lines 162-166,
with `args` nil at the start of the pass. -/
def queueArgs (X : Externals) (queueType route : String) : Option Table :=
  if queueType = "delay" then
    some [("x-dead-letter-exchange", X.constructExchangeName route "instant")]
  else none

/-- The three operations of one complete iteration of the inner loop. -/
def routeOps (X : Externals) (queueType route : String) : List BrokerOp :=
  [.exchangeDeclare (X.constructExchangeName route queueType) ExchangeFanout true false
      false false none,
    .queueDeclare (X.constructQueueName route queueType) true false false false
      (queueArgs X queueType route),
    .queueBind (X.constructQueueName route queueType) "" (X.constructExchangeName route queueType)
      false (queueArgs X queueType route)]

/-- The operations of a complete provisioning, in order. -/
def topologyOps (X : Externals) (order : String → List String) : List BrokerOp :=
  queueTypes.flatMap (fun queueType => (order queueType).flatMap (routeOps X queueType))

/-- The calls that precede the loops of `initPublisher` when all of them succeed. -/
def setupCalls (r : RabbitMQRetry) : List Call :=
  [(.logInfo "dialing rabbitmq server" (String.intercalate "," r.hosts), none),
    (.newDialer r.hosts, none), (.connection, none), (.channel, none)]

/-- Shape of the calls added by a loop: all succeeded when no error is returned;
otherwise the last one failed with the returned error and the ones before it
succeeded. -/
def RunShape (err : Option Error) (added : List Call) : Prop :=
  match err with
  | none => ∀ c ∈ added, c.2 = none
  | some e => ∃ pre op, added = pre ++ [(op, some e)] ∧ ∀ c ∈ pre, c.2 = none

/-- A declaration of the exchange of the given name. -/
def BrokerOp.declaresExchange (exchange : String) : BrokerOp → Bool
  | .exchangeDeclare name _ _ _ _ _ _ => decide (name = exchange)
  | _ => false

/-- A declaration of the queue of the given name. -/
def BrokerOp.declaresQueue (queue : String) : BrokerOp → Bool
  | .queueDeclare name _ _ _ _ _ => decide (name = queue)
  | _ => false

/-- A binding of the given queue to the given exchange. -/
def BrokerOp.binds (queue exchange : String) : BrokerOp → Bool
  | .queueBind name _ ex _ _ => decide (name = queue ∧ ex = exchange)
  | _ => false

/-! ## Concrete configurations, events and broker behaviours -/

/-- A naming scheme and codec for the concrete runs: names join route, queue type and a
suffix with underscores; the body is the retry count followed by the value. -/
def sampleExternals : Externals :=
  { HeaderMessageRoute := "route"
    RetryMessage := 1
    constructExchangeName := fun r t => r ++ "_" ++ t ++ "_exchange"
    constructQueueName := fun r t => r ++ "_" ++ t ++ "_queue"
    encodeMessage := fun p => .ok (p.RetryCount.toNat :: p.MessageVal) }

/-- The configuration of Scenario A: one route with two retries and expiration 200. -/
def ordersConfig : QueueConfig :=
  [("orders", some { RetryCount := 2, DelayQueueExpirationInMS := "200" })]

/-- A retrier over `ordersConfig` whose publisher has been started. -/
def startedRetrier : RabbitMQRetry :=
  { NewRabbitRetrier ["amqp://localhost"] ordersConfig none with
    dialer := some { urls := ["amqp://localhost"] } }

/-- A publisher side on which every call succeeds. -/
def healthyPublisher : PublisherBehaviour :=
  { Publisher := none, Publish := fun _ => none }

/-- A publisher side on which every publish fails. -/
def failingPublisher : PublisherBehaviour :=
  { Publisher := none, Publish := fun _ => some "publish failed" }

/-- A first-attempt event on route `orders`. -/
def firstAttempt : Event := .plain [7] [("route", "orders")] 0

/-- An event whose route header names a route that is not configured. -/
def ghostEvent : Event := .plain [7] [("route", "ghost")] 0

/-- An event without a route header. -/
def headerlessEvent : Event := .plain [7] [] 0

/-- A retrier, publisher started, whose configuration has a route with the empty name. -/
def emptyNameRetrier : RabbitMQRetry :=
  { NewRabbitRetrier ["amqp://localhost"]
      [("", some { RetryCount := 2, DelayQueueExpirationInMS := "200" })] none with
    dialer := some { urls := ["amqp://localhost"] } }

/-- A handler that always asks for a retry. -/
def alwaysRetry : Handler := fun _ => sampleExternals.RetryMessage

/-- A handler that never asks for a retry. -/
def alwaysDone : Handler := fun _ => 0

/-- A broker that refuses the connection and accepts every other call. -/
def connectionRefused : BrokerBehaviour :=
  fun _ op => match op with
    | .connection => some "connection refused"
    | _ => none

/-- A broker on which a dialer cannot be created. -/
def dialerRefused : BrokerBehaviour :=
  fun _ op => match op with
    | .newDialer _ => some "url(s) must be set"
    | _ => none

/-- A broker that rejects the declaration of the delay queue of route `orders`. -/
def delayQueueRejected : BrokerBehaviour :=
  fun _ op => match op with
    | .queueDeclare "orders_delay_queue" _ _ _ _ _ => some "PRECONDITION_FAILED"
    | _ => none

/-- A broker on which every call succeeds. -/
def healthyBroker : BrokerBehaviour := fun _ _ => none

/-- A retrier over `ordersConfig`, as constructed. -/
def freshRetrier : RabbitMQRetry := NewRabbitRetrier ["amqp://localhost"] ordersConfig none

/-- The order of the `range` over `ordersConfig`: its single route. -/
def ordersOrder : String → List String := fun _ => ["orders"]

/-- The configuration of Scenario C: routes `a` and `b`. -/
def twoRoutesConfig : QueueConfig :=
  [("a", some { RetryCount := 1, DelayQueueExpirationInMS := "100" }),
    ("b", some { RetryCount := 3, DelayQueueExpirationInMS := "500" })]

/-- A retrier over `twoRoutesConfig`, as constructed. -/
def twoRoutesRetrier : RabbitMQRetry :=
  NewRabbitRetrier ["amqp://localhost"] twoRoutesConfig none

/-- An order of the ranges over `twoRoutesConfig` that differs between the passes. -/
def twoRoutesOrder : String → List String :=
  fun queueType => if queueType = "delay" then ["b", "a"] else ["a", "b"]

/-! ## Arithmetic of the retry count -/

theorem wrapInt_of_isInt {x : Int} (h : isInt x) : wrapInt x = x := by
  unfold isInt at h
  unfold wrapInt
  omega

theorem wrapInt_succ_of_lt {c n : Int} (hc : isInt c) (hn : isInt n) (h : c < n) :
    wrapInt (c + 1) = c + 1 := by
  apply wrapInt_of_isInt
  unfold isInt at *
  omega

/-! ## The retry decision -/

theorem route_dead_letter (X : Externals) (q : QueueConfig) (name : String)
    (p : RabbitMQPayload) (cfg : RouteConfig) (hcfg : q.entry name = some cfg)
    (h : p.RetryCount ≥ cfg.RetryCount) :
    route X q name p = .returned (X.constructExchangeName name "dead_letter", "", p) := by
  simp [route, hcfg, h]

theorem route_delay (X : Externals) (q : QueueConfig) (name : String)
    (p : RabbitMQPayload) (cfg : RouteConfig) (hcfg : q.entry name = some cfg)
    (hp : isInt p.RetryCount) (hn : isInt cfg.RetryCount)
    (h : p.RetryCount < cfg.RetryCount) :
    route X q name p = .returned (X.constructExchangeName name "delay",
      cfg.DelayQueueExpirationInMS, { p with RetryCount := p.RetryCount + 1 }) := by
  have hnot : ¬ p.RetryCount ≥ cfg.RetryCount := by omega
  simp [route, hcfg, hnot, wrapInt_succ_of_lt hp hn h]

theorem route_panics (X : Externals) (q : QueueConfig) (name : String)
    (p : RabbitMQPayload) (hcfg : q.entry name = none) :
    route X q name p = .panicked := by
  simp [route, hcfg]

theorem routeNameOf_of_header (X : Externals) (event : Event) (name : String)
    (h : List.lookup X.HeaderMessageRoute event.Headers = some name) :
    routeNameOf X event = name := by
  simp [routeNameOf, h]

/-- The trace of `retry` once the route decision is known. -/
theorem retry_of_route (X : Externals) (r : RabbitMQRetry) (b : PublisherBehaviour)
    (event : Event) (exchange expiration : String) (payload : RabbitMQPayload)
    (hroute : route X r.queueConfig (routeNameOf X event) (envelope event) =
      .returned (exchange, expiration, payload)) :
    ∀ m, Effect.publish m ∈ (retry X r b event).2 →
      m.Exchange = exchange ∧ m.Publishing.Expiration = expiration ∧
      X.encodeMessage payload = .ok m.Publishing.Body := by
  intro m hm
  unfold retry at hm
  cases hdial : r.dialer with
  | none => simp [hdial] at hm
  | some d =>
    cases hpub : b.Publisher with
    | some e => simp [hdial, hpub] at hm
    | none =>
      cases henc : X.encodeMessage payload with
      | error e => simp [hdial, hpub, hroute, henc] at hm
      | ok buff =>
        simp [hdial, hpub, hroute, henc] at hm
        subst hm
        simp

/-- When the publisher is acquired and the envelope encodes, `retry` publishes. -/
theorem retry_publishes (X : Externals) (r : RabbitMQRetry) (b : PublisherBehaviour)
    (event : Event) (exchange expiration : String) (payload : RabbitMQPayload)
    (buff : Bytes)
    (hroute : route X r.queueConfig (routeNameOf X event) (envelope event) =
      .returned (exchange, expiration, payload))
    (hdial : r.dialer ≠ none) (hpub : b.Publisher = none)
    (henc : X.encodeMessage payload = .ok buff) :
    retry X r b event =
      (.returned (b.Publish
          { Exchange := exchange, Publishing := { Expiration := expiration, Body := buff } }),
        [.acquire event.Context, .encode payload,
          .publish
            { Exchange := exchange, Publishing := { Expiration := expiration, Body := buff } },
          .pubClose]) := by
  unfold retry
  cases hd : r.dialer with
  | none => exact absurd hd hdial
  | some d => simp [hpub, hroute, henc]

/-- C1: for an event whose route header names a configured route, with `c` the retry
count of its envelope and `N` the route's RetryCount, every message `retry` publishes
goes to the route's dead_letter exchange if and only if `c ≥ N`, then with empty
expiration and the envelope encoded unchanged (count `c`); otherwise it goes to the
delay exchange with the route's DelayQueueExpirationInMS as expiration and the envelope
encoded with count `c + 1`; and a message is published whenever the publisher is
acquired and the encoding succeeds. -/
theorem retry_decision_correct (X : Externals) (r : RabbitMQRetry) (b : PublisherBehaviour)
    (event : Event) (name : String) (cfg : RouteConfig)
    (hheader : List.lookup X.HeaderMessageRoute event.Headers = some name)
    (hcfg : r.queueConfig.entry name = some cfg)
    (hc : isInt (envelope event).RetryCount) (hn : isInt cfg.RetryCount)
    (hnames : X.constructExchangeName name "dead_letter" ≠
      X.constructExchangeName name "delay") :
    (∀ m, Effect.publish m ∈ (retry X r b event).2 →
      (m.Exchange = X.constructExchangeName name "dead_letter" ↔
        (envelope event).RetryCount ≥ cfg.RetryCount) ∧
      ((envelope event).RetryCount ≥ cfg.RetryCount →
        m.Publishing.Expiration = "" ∧
        X.encodeMessage (envelope event) = .ok m.Publishing.Body) ∧
      (¬ (envelope event).RetryCount ≥ cfg.RetryCount →
        m.Exchange = X.constructExchangeName name "delay" ∧
        m.Publishing.Expiration = cfg.DelayQueueExpirationInMS ∧
        X.encodeMessage
          { envelope event with RetryCount := (envelope event).RetryCount + 1 } =
          .ok m.Publishing.Body)) ∧
    (r.dialer ≠ none → b.Publisher = none → (∀ p, ∃ body, X.encodeMessage p = .ok body) →
      ∃ m, Effect.publish m ∈ (retry X r b event).2) := by
  have hname := routeNameOf_of_header X event name hheader
  by_cases h : (envelope event).RetryCount ≥ cfg.RetryCount
  · have hroute := route_dead_letter X r.queueConfig name (envelope event) cfg hcfg h
    rw [← hname] at hroute
    refine ⟨fun m hm => ?_, fun hdial hpub henc => ?_⟩
    · obtain ⟨h1, h2, h3⟩ := retry_of_route X r b event _ _ _ hroute m hm
      rw [hname] at h1
      exact ⟨⟨fun _ => h, fun _ => h1⟩, fun _ => ⟨h2, h3⟩, fun hnot => absurd h hnot⟩
    · obtain ⟨body, hbody⟩ := henc (envelope event)
      rw [retry_publishes X r b event _ _ _ body hroute hdial hpub hbody]
      exact ⟨_, List.mem_cons_of_mem _ (List.mem_cons_of_mem _ (List.mem_cons_self _ _))⟩
  · have hlt : (envelope event).RetryCount < cfg.RetryCount := by omega
    have hroute := route_delay X r.queueConfig name (envelope event) cfg hcfg hc hn hlt
    rw [← hname] at hroute
    refine ⟨fun m hm => ?_, fun hdial hpub henc => ?_⟩
    · obtain ⟨h1, h2, h3⟩ := retry_of_route X r b event _ _ _ hroute m hm
      rw [hname] at h1
      refine ⟨⟨fun heq => ?_, fun hge => absurd hge h⟩, fun hge => absurd hge h,
        fun _ => ⟨h1, h2, h3⟩⟩
      exact absurd (heq.symm.trans h1) hnames
    · obtain ⟨body, hbody⟩ := henc _
      rw [retry_publishes X r b event _ _ _ body hroute hdial hpub hbody]
      exact ⟨_, List.mem_cons_of_mem _ (List.mem_cons_of_mem _ (List.mem_cons_self _ _))⟩

/-- Witness for C1: the first failure of a fresh message on route `orders` (budget 2). -/
theorem retry_decision_correct_witness :
    List.lookup sampleExternals.HeaderMessageRoute firstAttempt.Headers = some "orders" ∧
    startedRetrier.queueConfig.entry "orders" =
      some { RetryCount := 2, DelayQueueExpirationInMS := "200" } ∧
    isInt (envelope firstAttempt).RetryCount ∧
    isInt 2 ∧
    sampleExternals.constructExchangeName "orders" "dead_letter" ≠
      sampleExternals.constructExchangeName "orders" "delay" ∧
    (∀ m, Effect.publish m ∈
        (retry sampleExternals startedRetrier healthyPublisher firstAttempt).2 →
      m.Exchange = "orders_delay_exchange" ∧ m.Publishing.Expiration = "200" ∧
      m.Publishing.Body = [1, 7]) ∧
    ∃ m, Effect.publish m ∈
      (retry sampleExternals startedRetrier healthyPublisher firstAttempt).2 := by
  have hheader : List.lookup sampleExternals.HeaderMessageRoute firstAttempt.Headers =
      some "orders" := by decide
  have hcfg : startedRetrier.queueConfig.entry "orders" =
      some { RetryCount := 2, DelayQueueExpirationInMS := "200" } := by decide
  have hc : isInt (envelope firstAttempt).RetryCount := by decide
  have hn : isInt (2 : Int) := by decide
  have hnames : sampleExternals.constructExchangeName "orders" "dead_letter" ≠
      sampleExternals.constructExchangeName "orders" "delay" := by decide
  have key := retry_decision_correct sampleExternals startedRetrier healthyPublisher
    firstAttempt "orders" { RetryCount := 2, DelayQueueExpirationInMS := "200" }
    hheader hcfg hc hn hnames
  refine ⟨hheader, hcfg, hc, hn, hnames, fun m hm => ?_,
    key.2 (by decide) rfl (fun p => ⟨_, rfl⟩)⟩
  obtain ⟨h1, h2, h3⟩ := (key.1 m hm).2.2 (by decide)
  refine ⟨h1, h2, ?_⟩
  have h4 : (Except.ok [1, 7] : Except Error Bytes) = .ok m.Publishing.Body := h3
  exact (Except.ok.inj h4).symm

/-! ## Repeated retries -/

theorem retrySequence_payload (X : Externals) (q : QueueConfig) (name : String)
    (cfg : RouteConfig) (hcfg : q.entry name = some cfg) (hn : isInt cfg.RetryCount)
    (m : Nat) :
    ∀ p : RabbitMQPayload,
      List.lookup X.HeaderMessageRoute p.MessageHeaders = some name →
      p.RetryCount + m = cfg.RetryCount → 0 ≤ p.RetryCount →
      retrySequence X q (m + 1) (.payload p) =
        (List.range m).map (fun (i : Nat) => (X.constructExchangeName name "delay",
          cfg.DelayQueueExpirationInMS, p.RetryCount + (i : Int) + 1)) ++
        [(X.constructExchangeName name "dead_letter", "", cfg.RetryCount)] := by
  induction m with
  | zero =>
    intro p hh hp _
    have hname : routeNameOf X (.payload p) = name := routeNameOf_of_header X _ name hh
    have hge : p.RetryCount ≥ cfg.RetryCount := by omega
    have hroute := route_dead_letter X q name p cfg hcfg hge
    have heq : p.RetryCount = cfg.RetryCount := by omega
    simp [retrySequence, hname, envelope, hroute, heq]
  | succ m ih =>
    intro p hh hp h0
    have hname : routeNameOf X (.payload p) = name := routeNameOf_of_header X _ name hh
    have hlt : p.RetryCount < cfg.RetryCount := by omega
    have hpi : isInt p.RetryCount := by
      unfold isInt at *
      omega
    have hroute := route_delay X q name p cfg hcfg hpi hn hlt
    have hrec := ih { p with RetryCount := p.RetryCount + 1 } hh
      (by simp only []; omega) (by simp only []; omega)
    rw [retrySequence]
    simp only [hname, envelope, hroute]
    rw [hrec, List.range_succ_eq_map, List.map_cons, List.map_map, List.cons_append]
    congr 1
    · simp
    · congr 1
      apply List.map_congr_left
      intro i _
      simp only [Function.comp, Nat.succ_eq_add_one, Nat.cast_add, Nat.cast_one]
      congr 2
      omega

theorem retrySequence_plain (X : Externals) (q : QueueConfig) (n : Nat)
    (value : Bytes) (headers : Headers) (ctx : Context) :
    retrySequence X q n (.plain value headers ctx) =
      retrySequence X q n (.payload (envelope (.plain value headers ctx))) := by
  cases n with
  | zero => rfl
  | succ n => rfl

/-- C2: for a route with RetryCount `N ≥ 0` and a first-attempt event (not a
`RabbitMQPayload`), the envelope starts with retry count 0, and applying the retry
decision `N + 1` times, each time to the envelope produced by the previous retry, gives
`N` publications to the delay exchange carrying the counts 1, 2, ..., N in that order,
followed by one publication to the dead_letter exchange with the count still `N`. -/
theorem retry_sequence_until_dead_letter (X : Externals) (q : QueueConfig) (name : String)
    (cfg : RouteConfig) (value : Bytes) (headers : Headers) (ctx : Context)
    (hheader : List.lookup X.HeaderMessageRoute headers = some name)
    (hcfg : q.entry name = some cfg)
    (h0 : 0 ≤ cfg.RetryCount) (hn : isInt cfg.RetryCount) :
    (envelope (.plain value headers ctx)).RetryCount = 0 ∧
    retrySequence X q (cfg.RetryCount.toNat + 1) (.plain value headers ctx) =
      (List.range cfg.RetryCount.toNat).map (fun (i : Nat) =>
        (X.constructExchangeName name "delay", cfg.DelayQueueExpirationInMS, (i : Int) + 1)) ++
      [(X.constructExchangeName name "dead_letter", "", cfg.RetryCount)] := by
  refine ⟨rfl, ?_⟩
  rw [retrySequence_plain]
  have key := retrySequence_payload X q name cfg hcfg hn cfg.RetryCount.toNat
    (envelope (.plain value headers ctx)) hheader
    (by simp only [envelope]; omega) (by simp [envelope])
  rw [key]
  simp [envelope]

/-- Witness for C2, Scenario A: budget 2 and expiration "200" give delay (count 1),
delay (count 2), dead_letter (count 2). -/
theorem retry_sequence_until_dead_letter_witness :
    List.lookup sampleExternals.HeaderMessageRoute [("route", "orders")] = some "orders" ∧
    ordersConfig.entry "orders" = some { RetryCount := 2, DelayQueueExpirationInMS := "200" } ∧
    (0 : Int) ≤ 2 ∧ isInt 2 ∧
    retrySequence sampleExternals ordersConfig 3 firstAttempt =
      [("orders_delay_exchange", "200", 1), ("orders_delay_exchange", "200", 2),
        ("orders_dead_letter_exchange", "", 2)] := by
  have key := retry_sequence_until_dead_letter sampleExternals ordersConfig "orders"
    { RetryCount := 2, DelayQueueExpirationInMS := "200" } [7] [("route", "orders")] 0
    (by decide) (by decide) (by decide) (by decide)
  refine ⟨by decide, by decide, by decide, by decide, ?_⟩
  have h := key.2
  simpa [sampleExternals, List.range_succ] using h

/-! ## Outcome and trace of `retry` -/

theorem route_returns_of_configured (X : Externals) (q : QueueConfig) (name : String)
    (p : RabbitMQPayload) (cfg : RouteConfig) (hcfg : q.entry name = some cfg) :
    ∃ exchange expiration payload,
      route X q name p = .returned (exchange, expiration, payload) := by
  unfold route
  simp only [hcfg]
  split_ifs
  · exact ⟨_, _, _, rfl⟩
  · exact ⟨_, _, _, rfl⟩

theorem retry_returns_of_configured (X : Externals) (r : RabbitMQRetry)
    (b : PublisherBehaviour) (event : Event) (cfg : RouteConfig)
    (hd : r.dialer ≠ none)
    (hcfg : r.queueConfig.entry (routeNameOf X event) = some cfg) :
    ∃ err, (retry X r b event).1 = .returned err := by
  obtain ⟨exchange, expiration, payload, hroute⟩ :=
    route_returns_of_configured X r.queueConfig _ (envelope event) cfg hcfg
  unfold retry
  cases hdial : r.dialer with
  | none => exact absurd hdial hd
  | some d =>
    cases hpub : b.Publisher with
    | some e => exact ⟨_, rfl⟩
    | none =>
      simp only [hroute]
      cases X.encodeMessage payload with
      | error e => exact ⟨_, rfl⟩
      | ok buff => exact ⟨_, rfl⟩

theorem retry_unconfigured (X : Externals) (r : RabbitMQRetry)
    (b : PublisherBehaviour) (event : Event)
    (hd : r.dialer ≠ none) (hpub : b.Publisher = none)
    (hcfg : r.queueConfig.entry (routeNameOf X event) = none) :
    retry X r b event = (.panicked, [.acquire event.Context, .pubClose]) := by
  unfold retry
  cases hdial : r.dialer with
  | none => exact absurd hdial hd
  | some d => simp [hpub, route_panics X _ _ _ hcfg]

theorem retry_acquire_fails (X : Externals) (r : RabbitMQRetry)
    (b : PublisherBehaviour) (event : Event) (e : Error)
    (hd : r.dialer ≠ none) (hpub : b.Publisher = some e) :
    retry X r b event = (.returned (some e), [.acquire event.Context]) := by
  unfold retry
  cases hdial : r.dialer with
  | none => exact absurd hdial hd
  | some d => simp [hpub]

/-- The four shapes of the trace of `retry` after a successful acquisition. -/
theorem retry_trace_shapes (X : Externals) (r : RabbitMQRetry)
    (b : PublisherBehaviour) (event : Event)
    (hd : r.dialer ≠ none) (hpub : b.Publisher = none) :
    (retry X r b event).2 = [.acquire event.Context, .pubClose] ∨
    (∃ p, (retry X r b event).2 = [.acquire event.Context, .encode p, .pubClose]) ∨
    (∃ p m, (retry X r b event).2 =
      [.acquire event.Context, .encode p, .publish m, .pubClose]) := by
  unfold retry
  cases hdial : r.dialer with
  | none => exact absurd hdial hd
  | some d =>
    simp only [hpub]
    split
    · exact Or.inl rfl
    · split
      · exact Or.inr (Or.inl ⟨_, rfl⟩)
      · exact Or.inr (Or.inr ⟨_, _, rfl⟩)

theorem retry_trace_of_no_dialer (X : Externals) (r : RabbitMQRetry)
    (b : PublisherBehaviour) (event : Event) (hd : r.dialer = none) :
    retry X r b event = (.panicked, []) := by
  simp [retry, hd]

theorem retry_no_log (X : Externals) (r : RabbitMQRetry)
    (b : PublisherBehaviour) (event : Event) :
    (retry X r b event).2.countP Effect.isLogError = 0 := by
  cases hdial : r.dialer with
  | none => simp [retry_trace_of_no_dialer X r b event hdial]
  | some d =>
    have hd : r.dialer ≠ none := by simp [hdial]
    cases hpub : b.Publisher with
    | some e => simp [retry_acquire_fails X r b event e hd hpub, Effect.isLogError]
    | none =>
      rcases retry_trace_shapes X r b event hd hpub with h | ⟨p, h⟩ | ⟨p, m, h⟩ <;>
        simp [h, Effect.isLogError]

theorem retry_acquires (X : Externals) (r : RabbitMQRetry)
    (b : PublisherBehaviour) (event : Event) (hd : r.dialer ≠ none) :
    Effect.acquire event.Context ∈ (retry X r b event).2 := by
  cases hpub : b.Publisher with
  | some e => simp [retry_acquire_fails X r b event e hd hpub]
  | none =>
    rcases retry_trace_shapes X r b event hd hpub with h | ⟨p, h⟩ | ⟨p, m, h⟩ <;>
      simp [h]

/-! ## The handler returned by `Retrier` -/

theorem Retrier_of_other_status (X : Externals) (r : RabbitMQRetry)
    (b : PublisherBehaviour) (handler : Handler) (event : Event)
    (hd : r.dialer ≠ none) (hs : handler event ≠ X.RetryMessage) :
    Retrier X r b handler event = (.returned (handler event), [.handlerCall event]) := by
  unfold Retrier
  cases hdial : r.dialer with
  | none => exact absurd hdial hd
  | some d => simp [hs]

theorem Retrier_of_retry_returned (X : Externals) (r : RabbitMQRetry)
    (b : PublisherBehaviour) (handler : Handler) (event : Event) (err : Option Error)
    (hd : r.dialer ≠ none) (hs : handler event = X.RetryMessage)
    (hret : (retry X r b event).1 = .returned err) :
    Retrier X r b handler event =
      (.returned (handler event),
        .handlerCall event :: (retry X r b event).2 ++
          [.logError "error retrying message" err]) := by
  unfold Retrier
  cases hdial : r.dialer with
  | none => exact absurd hdial hd
  | some d =>
    simp only [hs, if_true]
    generalize retry X r b event = res at hret
    obtain ⟨out, trace⟩ := res
    simp only at hret
    subst hret
    rfl

theorem Retrier_of_retry_panicked (X : Externals) (r : RabbitMQRetry)
    (b : PublisherBehaviour) (handler : Handler) (event : Event)
    (hd : r.dialer ≠ none) (hs : handler event = X.RetryMessage)
    (hret : (retry X r b event).1 = .panicked) :
    Retrier X r b handler event =
      (.panicked, .handlerCall event :: (retry X r b event).2) := by
  unfold Retrier
  cases hdial : r.dialer with
  | none => exact absurd hdial hd
  | some d =>
    simp only [hs, if_true]
    generalize retry X r b event = res at hret
    obtain ⟨out, trace⟩ := res
    simp only at hret
    subst hret
    rfl

/-- C3, the claim as stated fails: with the publisher started, an event on a route that
is not configured and a handler that asks for a retry, the handler returned by
`Retrier` panics inside `retry` and returns no status. -/
theorem retrier_status_lost_on_unconfigured_route :
    startedRetrier.dialer ≠ none ∧
    alwaysRetry ghostEvent = 1 ∧
    Retrier sampleExternals startedRetrier healthyPublisher alwaysRetry ghostEvent =
      (.panicked, [.handlerCall ghostEvent, .acquire 0, .pubClose]) ∧
    (Retrier sampleExternals startedRetrier healthyPublisher alwaysRetry ghostEvent).1 ≠
      .returned (alwaysRetry ghostEvent) := by
  refine ⟨by decide, rfl, by decide, by decide⟩

/-- C3 (amended): once the publisher has been started, for every wrapped handler and
every event whose route is in the queue configuration or for which the handler does
not ask for a retry, the handler returned by `Retrier` returns exactly the status the
wrapped handler returned, whatever the publisher side does (acquisition, encoding or
publishing may fail). -/
theorem retrier_returns_handler_status (X : Externals) (r : RabbitMQRetry)
    (b : PublisherBehaviour) (handler : Handler) (event : Event)
    (hd : r.dialer ≠ none)
    (hcfg : handler event = X.RetryMessage →
      ∃ cfg, r.queueConfig.entry (routeNameOf X event) = some cfg) :
    (Retrier X r b handler event).1 = .returned (handler event) := by
  by_cases hs : handler event = X.RetryMessage
  · obtain ⟨cfg, hc⟩ := hcfg hs
    obtain ⟨err, herr⟩ := retry_returns_of_configured X r b event cfg hd hc
    rw [Retrier_of_retry_returned X r b handler event err hd hs herr]
  · rw [Retrier_of_other_status X r b handler event hd hs]

/-- Witness for C3 (amended): the publish fails and the status is still the handler's. -/
theorem retrier_returns_handler_status_witness :
    startedRetrier.dialer ≠ none ∧
    (alwaysRetry firstAttempt = sampleExternals.RetryMessage →
      ∃ cfg, startedRetrier.queueConfig.entry (routeNameOf sampleExternals firstAttempt) =
        some cfg) ∧
    (retry sampleExternals startedRetrier failingPublisher firstAttempt).1 =
      .returned (some "publish failed") ∧
    (Retrier sampleExternals startedRetrier failingPublisher alwaysRetry firstAttempt).1 =
      .returned (alwaysRetry firstAttempt) :=
  ⟨by decide,
    fun _ => ⟨{ RetryCount := 2, DelayQueueExpirationInMS := "200" }, by decide⟩,
    by decide,
    retrier_returns_handler_status sampleExternals startedRetrier failingPublisher
      alwaysRetry firstAttempt (by decide)
      (fun _ => ⟨{ RetryCount := 2, DelayQueueExpirationInMS := "200" }, by decide⟩)⟩

/-- C9, the claim as stated fails: the wrapped handler returns the retry status, `retry`
panics on the route that is not configured, and no error-level log call is made. -/
theorem retrier_no_log_on_unconfigured_route :
    startedRetrier.dialer ≠ none ∧
    alwaysRetry ghostEvent = sampleExternals.RetryMessage ∧
    (Retrier sampleExternals startedRetrier healthyPublisher alwaysRetry ghostEvent).2.countP
      Effect.isLogError = 0 := by
  refine ⟨by decide, rfl, by decide⟩

/-- C9 (amended): with the publisher started, the handler returned by `Retrier` makes
exactly one error-level log call, "error retrying message" with the error `retry`
returned (nil included), after the effects of `retry`, when the wrapped handler returns
the retry status and the route of the event is in the queue configuration; it makes no
log call and has no effect but the handler call for any other status; and `retry` runs
(a publisher is requested) if and only if the status is the retry status. -/
theorem retrier_logs_once_on_retry (X : Externals) (r : RabbitMQRetry)
    (b : PublisherBehaviour) (handler : Handler) (event : Event)
    (hd : r.dialer ≠ none) :
    (handler event = X.RetryMessage →
      ∀ cfg, r.queueConfig.entry (routeNameOf X event) = some cfg →
      ∃ err, (retry X r b event).1 = .returned err ∧
        (Retrier X r b handler event).2 =
          .handlerCall event :: (retry X r b event).2 ++
            [.logError "error retrying message" err] ∧
        (Retrier X r b handler event).2.countP Effect.isLogError = 1) ∧
    (handler event ≠ X.RetryMessage →
      (Retrier X r b handler event).2 = [.handlerCall event] ∧
      (Retrier X r b handler event).2.countP Effect.isLogError = 0) ∧
    (Effect.acquire event.Context ∈ (Retrier X r b handler event).2 ↔
      handler event = X.RetryMessage) := by
  refine ⟨fun hs cfg hcfg => ?_, fun hs => ?_, ?_⟩
  · obtain ⟨err, herr⟩ := retry_returns_of_configured X r b event cfg hd hcfg
    refine ⟨err, herr, ?_, ?_⟩
    · rw [Retrier_of_retry_returned X r b handler event err hd hs herr]
    · rw [Retrier_of_retry_returned X r b handler event err hd hs herr]
      simp [List.countP_cons, List.countP_append, retry_no_log, Effect.isLogError]
  · rw [Retrier_of_other_status X r b handler event hd hs]
    simp [Effect.isLogError]
  · by_cases hs : handler event = X.RetryMessage
    · cases hout : (retry X r b event).1 with
      | returned err =>
        rw [Retrier_of_retry_returned X r b handler event err hd hs hout]
        simp [hs, retry_acquires X r b event hd]
      | panicked =>
        rw [Retrier_of_retry_panicked X r b handler event hd hs hout]
        simp [hs, retry_acquires X r b event hd]
    · rw [Retrier_of_other_status X r b handler event hd hs]
      simp [hs]

/-- Witness for C9 (amended): the retry succeeds and the one log call carries nil. -/
theorem retrier_logs_once_on_retry_witness :
    startedRetrier.dialer ≠ none ∧
    startedRetrier.queueConfig.entry (routeNameOf sampleExternals firstAttempt) =
      some { RetryCount := 2, DelayQueueExpirationInMS := "200" } ∧
    alwaysRetry firstAttempt = sampleExternals.RetryMessage ∧
    (retry sampleExternals startedRetrier healthyPublisher firstAttempt).1 = .returned none ∧
    Effect.logError "error retrying message" none ∈
      (Retrier sampleExternals startedRetrier healthyPublisher alwaysRetry firstAttempt).2 ∧
    (Retrier sampleExternals startedRetrier healthyPublisher alwaysRetry firstAttempt).2.countP
      Effect.isLogError = 1 ∧
    (Retrier sampleExternals startedRetrier healthyPublisher alwaysDone firstAttempt).2.countP
      Effect.isLogError = 0 := by
  have key := retrier_logs_once_on_retry sampleExternals startedRetrier healthyPublisher
    alwaysRetry firstAttempt (by decide)
  have key2 := retrier_logs_once_on_retry sampleExternals startedRetrier healthyPublisher
    alwaysDone firstAttempt (by decide)
  obtain ⟨err, _, _, hcount⟩ := key.1 rfl _ (by decide :
    startedRetrier.queueConfig.entry (routeNameOf sampleExternals firstAttempt) =
      some { RetryCount := 2, DelayQueueExpirationInMS := "200" })
  exact ⟨by decide, by decide, rfl, by decide, by decide, hcount,
    (key2.2.1 (by decide)).2⟩

/-! ## Acquisition and release of the publisher -/

/-- C8: whenever `retry` acquires the publisher, the publisher is closed exactly once
and the close is the last effect of the run, whatever the route lookup, the encoding and
the publish do; when the acquisition fails, `retry` returns the acquisition error and
its only effect is the attempted acquisition: nothing is published. -/
theorem retry_closes_publisher_once (X : Externals) (r : RabbitMQRetry)
    (b : PublisherBehaviour) (event : Event) (hd : r.dialer ≠ none) :
    (b.Publisher = none →
      (retry X r b event).2.count .pubClose = 1 ∧
      (retry X r b event).2.getLast? = some .pubClose) ∧
    (∀ e, b.Publisher = some e →
      retry X r b event = (.returned (some e), [.acquire event.Context]) ∧
      ∀ m, Effect.publish m ∉ (retry X r b event).2) := by
  refine ⟨fun hpub => ?_, fun e hpub => ?_⟩
  · rcases retry_trace_shapes X r b event hd hpub with h | ⟨p, h⟩ | ⟨p, m, h⟩ <;>
      simp [h]
  · have h := retry_acquire_fails X r b event e hd hpub
    refine ⟨h, fun m hm => ?_⟩
    rw [h] at hm
    simp at hm

/-- Witness for C8: the publish fails and the publisher is still closed once, last. -/
theorem retry_closes_publisher_once_witness :
    startedRetrier.dialer ≠ none ∧
    failingPublisher.Publisher = none ∧
    (retry sampleExternals startedRetrier failingPublisher firstAttempt).1 =
      .returned (some "publish failed") ∧
    (retry sampleExternals startedRetrier failingPublisher firstAttempt).2.count .pubClose = 1 ∧
    (retry sampleExternals startedRetrier failingPublisher firstAttempt).2.getLast? =
      some .pubClose :=
  ⟨by decide, rfl, by decide,
    (retry_closes_publisher_once sampleExternals startedRetrier failingPublisher firstAttempt
      (by decide)).1 rfl⟩

/-! ## Routes that are not configured -/

/-- C6, the claim as stated fails: a missing route header reads as the empty route
name; when a route of that name is configured, `retry` publishes to its delay exchange
with its expiration. -/
theorem retry_publishes_without_route_header :
    List.lookup sampleExternals.HeaderMessageRoute headerlessEvent.Headers = none ∧
    retry sampleExternals emptyNameRetrier healthyPublisher headerlessEvent =
      (.returned none,
        [.acquire 0,
          .encode { MessageVal := [7], MessageHeaders := [], ctx := 0, RetryCount := 1 },
          .publish { Exchange := "_delay_exchange",
                     Publishing := { Expiration := "200", Body := [1, 7] } },
          .pubClose]) := by
  refine ⟨by decide, by decide⟩

/-- C6 (amended): when the route name `retry` looks up (the value of the route header,
the empty string when the header is missing) has no entry in the queue configuration,
`retry` publishes no message, encodes no envelope and does not return success; once the
publisher is acquired it stops at the lookup (a nil dereference, after which the
publisher is closed), so no default budget, expiration or exchange is used. -/
theorem retry_unconfigured_route_publishes_nothing (X : Externals) (r : RabbitMQRetry)
    (b : PublisherBehaviour) (event : Event)
    (hcfg : r.queueConfig.entry (routeNameOf X event) = none) :
    (∀ m, Effect.publish m ∉ (retry X r b event).2) ∧
    (∀ p, Effect.encode p ∉ (retry X r b event).2) ∧
    (retry X r b event).1 ≠ .returned none ∧
    (r.dialer ≠ none → b.Publisher = none →
      retry X r b event = (.panicked, [.acquire event.Context, .pubClose])) := by
  cases hdial : r.dialer with
  | none => simp [retry_trace_of_no_dialer X r b event hdial]
  | some d =>
    have hd : r.dialer ≠ none := by simp [hdial]
    cases hpub : b.Publisher with
    | some e => simp [retry_acquire_fails X r b event e hd hpub]
    | none => simp [retry_unconfigured X r b event hd hpub hcfg]

/-- Witness for C6 (amended): the header names a route that is not configured. -/
theorem retry_unconfigured_route_publishes_nothing_witness :
    List.lookup sampleExternals.HeaderMessageRoute ghostEvent.Headers = some "ghost" ∧
    startedRetrier.queueConfig.entry (routeNameOf sampleExternals ghostEvent) = none ∧
    (∀ m, Effect.publish m ∉
      (retry sampleExternals startedRetrier healthyPublisher ghostEvent).2) ∧
    retry sampleExternals startedRetrier healthyPublisher ghostEvent =
      (.panicked, [.acquire 0, .pubClose]) := by
  have key := retry_unconfigured_route_publishes_nothing sampleExternals startedRetrier
    healthyPublisher ghostEvent (by decide)
  exact ⟨by decide, by decide, key.1, key.2.2.2 (by decide) rfl⟩

/-! ## The loops of `initPublisher` -/

theorem RunShape_append {a1 a2 : List Call} {err : Option Error}
    (h1 : RunShape none a1) (h2 : RunShape err a2) : RunShape err (a1 ++ a2) := by
  cases err with
  | none =>
    intro c hc
    rcases List.mem_append.mp hc with h | h
    · exact h1 c h
    · exact h2 c h
  | some e =>
    obtain ⟨pre, op, hadd, hpre⟩ := h2
    refine ⟨a1 ++ pre, op, by rw [hadd, List.append_assoc], fun c hc => ?_⟩
    rcases List.mem_append.mp hc with h | h
    · exact h1 c h
    · exact hpre c h

theorem declareRoute_spec (X : Externals) (b : BrokerBehaviour) (queueType route : String)
    (args : Option Table) (trace : List Call)
    (hargs : queueType ≠ "delay" → args = none) :
    (declareRoute X b queueType route args trace).2.2 = queueArgs X queueType route ∧
    ∃ added, (declareRoute X b queueType route args trace).2.1 = trace ++ added ∧
      (∀ c ∈ added, c.1.isDeclareOrBind = true) ∧
      RunShape (declareRoute X b queueType route args trace).1 added ∧
      (added.map Prod.fst) <+: routeOps X queueType route ∧
      ((declareRoute X b queueType route args trace).1 = none →
        added = (routeOps X queueType route).map (fun op => (op, none))) := by
  have hq : (if queueType = "delay" then
      some [("x-dead-letter-exchange", X.constructExchangeName route "instant")]
    else args) = queueArgs X queueType route := by
    unfold queueArgs
    split_ifs with h
    · rfl
    · exact hargs h
  unfold declareRoute
  simp only [hq]
  split
  · rename_i e he
    refine ⟨rfl, [((BrokerOp.exchangeDeclare (X.constructExchangeName route queueType) ExchangeFanout true
        false false false none), some e)], rfl, ?_,
      ⟨[], _, rfl, by simp⟩, ?_, by simp⟩
    · simp [BrokerOp.isDeclareOrBind]
    · simp [routeOps]
  · split
    · rename_i e he
      refine ⟨rfl, [((BrokerOp.exchangeDeclare (X.constructExchangeName route queueType) ExchangeFanout true
        false false false none), none),
        ((BrokerOp.queueDeclare (X.constructQueueName route queueType) true false false false
        (queueArgs X queueType route)), some e)], by simp, ?_,
        ⟨[((BrokerOp.exchangeDeclare (X.constructExchangeName route queueType) ExchangeFanout true
        false false false none), none)], _, rfl, by simp⟩, ?_, by simp⟩
      · simp [BrokerOp.isDeclareOrBind]
      · simp [routeOps]
    · split
      · rename_i e he
        refine ⟨rfl, [((BrokerOp.exchangeDeclare (X.constructExchangeName route queueType) ExchangeFanout true
        false false false none), none),
          ((BrokerOp.queueDeclare (X.constructQueueName route queueType) true false false false
        (queueArgs X queueType route)), none),
          ((BrokerOp.queueBind (X.constructQueueName route queueType) ""
        (X.constructExchangeName route queueType) false (queueArgs X queueType route)), some e)], by simp, ?_,
          ⟨[((BrokerOp.exchangeDeclare (X.constructExchangeName route queueType) ExchangeFanout true
        false false false none), none),
            ((BrokerOp.queueDeclare (X.constructQueueName route queueType) true false false false
        (queueArgs X queueType route)), none)], _, rfl, by simp⟩, ?_, by simp⟩
        · simp [BrokerOp.isDeclareOrBind]
        · simp [routeOps]
      · refine ⟨rfl, [((BrokerOp.exchangeDeclare (X.constructExchangeName route queueType) ExchangeFanout true
        false false false none), none),
          ((BrokerOp.queueDeclare (X.constructQueueName route queueType) true false false false
        (queueArgs X queueType route)), none),
          ((BrokerOp.queueBind (X.constructQueueName route queueType) ""
        (X.constructExchangeName route queueType) false (queueArgs X queueType route)), none)], by simp, ?_, ?_, ?_, fun _ => ?_⟩
        · simp [BrokerOp.isDeclareOrBind]
        · simp [RunShape]
        · simp [routeOps]
        · simp [routeOps]

theorem queueArgs_of_not_delay (X : Externals) (queueType route : String)
    (h : queueType ≠ "delay") : queueArgs X queueType route = none := by
  simp [queueArgs, h]

theorem routeLoop_spec (X : Externals) (b : BrokerBehaviour) (queueType : String) :
    ∀ (routes : List String) (args : Option Table) (trace : List Call),
      (queueType ≠ "delay" → args = none) →
      ∃ added, (routeLoop X b queueType routes args trace).2 = trace ++ added ∧
        (∀ c ∈ added, c.1.isDeclareOrBind = true) ∧
        RunShape (routeLoop X b queueType routes args trace).1 added ∧
        (added.map Prod.fst) <+: routes.flatMap (routeOps X queueType) ∧
        ((routeLoop X b queueType routes args trace).1 = none →
          added = (routes.flatMap (routeOps X queueType)).map (fun op => (op, none))) := by
  intro routes
  induction routes with
  | nil =>
    intro args trace _
    exact ⟨[], by simp [routeLoop], by simp, by simp [routeLoop, RunShape],
      by simp, by simp⟩
  | cons route rest ih =>
    intro args trace hargs
    obtain ⟨hnext, added1, htrace, hops, hshape, hpre, hfull⟩ :=
      declareRoute_spec X b queueType route args trace hargs
    rw [routeLoop]
    rcases hres : declareRoute X b queueType route args trace with ⟨err, trace1, args1⟩
    rw [hres] at hnext htrace hshape hfull
    simp only at hnext htrace hshape hfull
    cases err with
    | some e =>
      refine ⟨added1, htrace, hops, hshape, ?_, by simp⟩
      rw [List.flatMap_cons]
      exact hpre.trans (List.prefix_append _ _)
    | none =>
      have hadd := hfull rfl
      obtain ⟨added2, htrace2, hops2, hshape2, hpre2, hfull2⟩ :=
        ih args1 trace1 (fun h => hnext.trans (queueArgs_of_not_delay X queueType route h))
      refine ⟨added1 ++ added2, ?_, ?_, RunShape_append hshape hshape2, ?_, fun hnone => ?_⟩
      · simp only
        rw [htrace2, htrace, List.append_assoc]
      · intro c hc
        rcases List.mem_append.mp hc with h | h
        · exact hops c h
        · exact hops2 c h
      · rw [List.flatMap_cons, List.map_append, hadd, List.map_map]
        have hid : (Prod.fst ∘ fun op : BrokerOp => (op, (none : Option Error))) = id := rfl
        rw [hid, List.map_id]
        exact (List.prefix_append_right_inj _).mpr hpre2
      · simp only at hnone
        rw [hfull2 hnone, hadd, List.flatMap_cons, List.map_append]

theorem tierLoop_spec (X : Externals) (b : BrokerBehaviour) (order : String → List String) :
    ∀ (tiers : List String) (trace : List Call),
      ∃ added, (tierLoop X b order tiers trace).2 = trace ++ added ∧
        (∀ c ∈ added, c.1.isDeclareOrBind = true) ∧
        RunShape (tierLoop X b order tiers trace).1 added ∧
        (added.map Prod.fst) <+:
          tiers.flatMap (fun queueType => (order queueType).flatMap (routeOps X queueType)) ∧
        ((tierLoop X b order tiers trace).1 = none →
          added = (tiers.flatMap (fun queueType =>
            (order queueType).flatMap (routeOps X queueType))).map (fun op => (op, none))) := by
  intro tiers
  induction tiers with
  | nil =>
    intro trace
    exact ⟨[], by simp [tierLoop], by simp, by simp [tierLoop, RunShape],
      by simp, by simp⟩
  | cons queueType rest ih =>
    intro trace
    obtain ⟨added1, htrace, hops, hshape, hpre, hfull⟩ :=
      routeLoop_spec X b queueType (order queueType) none trace (fun _ => rfl)
    rw [tierLoop]
    rcases hres : routeLoop X b queueType (order queueType) none trace with ⟨err, trace1⟩
    rw [hres] at htrace hshape hfull
    simp only at htrace hshape hfull
    cases err with
    | some e =>
      refine ⟨added1, htrace, hops, hshape, ?_, by simp⟩
      rw [List.flatMap_cons]
      exact hpre.trans (List.prefix_append _ _)
    | none =>
      have hadd := hfull rfl
      obtain ⟨added2, htrace2, hops2, hshape2, hpre2, hfull2⟩ := ih trace1
      refine ⟨added1 ++ added2, ?_, ?_, RunShape_append hshape hshape2, ?_, fun hnone => ?_⟩
      · simp only
        rw [htrace2, htrace, List.append_assoc]
      · intro c hc
        rcases List.mem_append.mp hc with h | h
        · exact hops c h
        · exact hops2 c h
      · rw [List.flatMap_cons, List.map_append, hadd, List.map_map]
        have hid : (Prod.fst ∘ fun op : BrokerOp => (op, (none : Option Error))) = id := rfl
        rw [hid, List.map_id]
        exact (List.prefix_append_right_inj _).mpr hpre2
      · simp only at hnone
        rw [hfull2 hnone, hadd, List.flatMap_cons, List.map_append]

/-! ## The runs of `initPublisher` -/

/-- The four ways `initPublisher` ends: no dialer, no connection, no channel, or the
loops ran (to the end or to the first failing operation) and both closes followed. -/
theorem initPublisher_cases (X : Externals) (r : RabbitMQRetry) (b : BrokerBehaviour)
    (order : String → List String) :
    (∃ e, initPublisher X r b order =
      (r, some e,
        [(.logInfo "dialing rabbitmq server" (String.intercalate "," r.hosts), none),
          (.newDialer r.hosts, some e)])) ∨
    (∃ e, initPublisher X r b order =
      ({ r with dialer := some { urls := r.hosts } }, some e,
        [(.logInfo "dialing rabbitmq server" (String.intercalate "," r.hosts), none),
          (.newDialer r.hosts, none), (.connection, some e)])) ∨
    (∃ e c, initPublisher X r b order =
      ({ r with dialer := some { urls := r.hosts } }, some e,
        [(.logInfo "dialing rabbitmq server" (String.intercalate "," r.hosts), none),
          (.newDialer r.hosts, none), (.connection, none), (.channel, some e),
          (.connectionClose, c)])) ∨
    (∃ err added c1 c2, initPublisher X r b order =
      ({ r with dialer := some { urls := r.hosts } }, err,
        setupCalls r ++ added ++ [(.channelClose, c1), (.connectionClose, c2)]) ∧
      (∀ c ∈ added, c.1.isDeclareOrBind = true) ∧
      RunShape err added ∧
      (err = none → added = (topologyOps X order).map (fun op => (op, none)))) := by
  unfold initPublisher
  simp only
  split
  · rename_i e he
    exact Or.inl ⟨e, rfl⟩
  · split
    · rename_i e he
      exact Or.inr (Or.inl ⟨e, rfl⟩)
    · split
      · rename_i e he
        exact Or.inr (Or.inr (Or.inl ⟨e, _, rfl⟩))
      · obtain ⟨added, htrace, hops, hshape, _, hfull⟩ :=
          tierLoop_spec X b order queueTypes (setupCalls r)
        refine Or.inr (Or.inr (Or.inr ?_))
        have hsetup : [((BrokerOp.logInfo "dialing rabbitmq server"
            (String.intercalate "," r.hosts), none) : Call)] ++
            [(.newDialer r.hosts, none)] ++ [(.connection, none)] ++ [(.channel, none)] =
            setupCalls r := rfl
        simp only [hsetup]
        rcases hres : tierLoop X b order queueTypes (setupCalls r) with ⟨err, t4⟩
        rw [hres] at htrace hshape hfull
        simp only at htrace hshape hfull
        subst htrace
        refine ⟨err, added, b (setupCalls r ++ added) .channelClose,
          b (setupCalls r ++ added ++
            [(.channelClose, b (setupCalls r ++ added) .channelClose)]) .connectionClose,
          ?_, hops, hshape, fun h => hfull h⟩
        simp only [List.append_assoc, List.singleton_append]

theorem split_at_unique {α : Type} (P : α → Prop) :
    ∀ (a a' b b' : List α) (x x' : α), a ++ x :: b = a' ++ x' :: b' → P x →
      (∀ y ∈ a', ¬ P y) → (∀ y ∈ b', ¬ P y) → a = a' ∧ x = x' ∧ b = b' := by
  intro a
  induction a with
  | nil =>
    intro a' b b' x x' h hx ha' hb'
    cases a' with
    | nil =>
      simp only [List.nil_append, List.cons.injEq] at h
      exact ⟨rfl, h.1, h.2⟩
    | cons y rest =>
      simp only [List.nil_append, List.cons_append, List.cons.injEq] at h
      exact absurd (h.1 ▸ hx) (ha' y (List.mem_cons_self _ _))
  | cons z a1 ih =>
    intro a' b b' x x' h hx ha' hb'
    cases a' with
    | nil =>
      simp only [List.nil_append, List.cons_append, List.cons.injEq] at h
      have hmem : x ∈ b' := by
        rw [← h.2]
        exact List.mem_append_right _ (List.mem_cons_self _ _)
      exact absurd hx (hb' x hmem)
    | cons y rest =>
      simp only [List.cons_append, List.cons.injEq] at h
      obtain ⟨h1, h2, h3⟩ := ih rest b b' x x' h.2 hx
        (fun w hw => ha' w (List.mem_cons_of_mem _ hw)) hb'
      exact ⟨by rw [h.1, h1], h2, h3⟩

theorem initPublisher_no_delete (X : Externals) (r : RabbitMQRetry) (b : BrokerBehaviour)
    (order : String → List String) :
    ∀ c ∈ (initPublisher X r b order).2.2, c.1.isDelete = false := by
  intro c hc
  rcases initPublisher_cases X r b order with ⟨e, h⟩ | ⟨e, h⟩ | ⟨e, c1, h⟩ |
    ⟨err, added, c1, c2, h, hops, _, _⟩
  · rw [h] at hc
    simp only [List.mem_cons, List.mem_singleton, List.not_mem_nil, or_false] at hc
    rcases hc with rfl | rfl <;> rfl
  · rw [h] at hc
    simp only [List.mem_cons, List.mem_singleton, List.not_mem_nil, or_false] at hc
    rcases hc with rfl | rfl | rfl <;> rfl
  · rw [h] at hc
    simp only [List.mem_cons, List.mem_singleton, List.not_mem_nil, or_false] at hc
    rcases hc with rfl | rfl | rfl | rfl | rfl <;> rfl
  · rw [h] at hc
    simp only [setupCalls, List.mem_append, List.mem_cons, List.mem_singleton,
      List.not_mem_nil, or_false] at hc
    rcases hc with ((rfl | rfl | rfl | rfl) | hadd) | (rfl | rfl)
    any_goals rfl
    have hdecl := hops c hadd
    cases hop : c.1 <;> simp [hop, BrokerOp.isDeclareOrBind] at hdecl <;> rfl

/-- C7: when an exchange declaration, a queue declaration or a queue binding issued by
`initPublisher` fails, `initPublisher` returns the error of that operation, the only
calls after it are the two deferred closes (no further declaration or binding), and no
call of the run deletes an exchange, a queue or a binding. -/
theorem initPublisher_aborts_on_first_failure (X : Externals) (r : RabbitMQRetry)
    (b : BrokerBehaviour) (order : String → List String)
    (pre post : List Call) (op : BrokerOp) (e : Error)
    (hsplit : (initPublisher X r b order).2.2 = pre ++ (op, some e) :: post)
    (hop : op.isDeclareOrBind = true) :
    (initPublisher X r b order).2.1 = some e ∧
    post.map Prod.fst = [.channelClose, .connectionClose] ∧
    (∀ c ∈ post, c.1.isDeclareOrBind = false) ∧
    (∀ c ∈ (initPublisher X r b order).2.2, c.1.isDelete = false) := by
  have hmem : ((op, some e) : Call) ∈ (initPublisher X r b order).2.2 := by
    rw [hsplit]
    exact List.mem_append_right _ (List.mem_cons_self _ _)
  have hdel := initPublisher_no_delete X r b order
  rcases initPublisher_cases X r b order with ⟨e1, h⟩ | ⟨e1, h⟩ | ⟨e1, c1, h⟩ |
    ⟨err, added, c1, c2, h, hops, hshape, _⟩
  · rw [h] at hmem
    simp only [List.mem_cons, List.mem_singleton, List.not_mem_nil, or_false,
      Prod.mk.injEq] at hmem
    rcases hmem with ⟨rfl, _⟩ | ⟨rfl, _⟩ <;> simp [BrokerOp.isDeclareOrBind] at hop
  · rw [h] at hmem
    simp only [List.mem_cons, List.mem_singleton, List.not_mem_nil, or_false,
      Prod.mk.injEq] at hmem
    rcases hmem with ⟨rfl, _⟩ | ⟨rfl, _⟩ | ⟨rfl, _⟩ <;>
      simp [BrokerOp.isDeclareOrBind] at hop
  · rw [h] at hmem
    simp only [List.mem_cons, List.mem_singleton, List.not_mem_nil, or_false,
      Prod.mk.injEq] at hmem
    rcases hmem with ⟨rfl, _⟩ | ⟨rfl, _⟩ | ⟨rfl, _⟩ | ⟨rfl, _⟩ | ⟨rfl, _⟩ <;>
      simp [BrokerOp.isDeclareOrBind] at hop
  · have hsetup : ∀ c ∈ setupCalls r, c.1.isDeclareOrBind = false := by
      intro c hc
      simp only [setupCalls, List.mem_cons, List.mem_singleton, List.not_mem_nil,
        or_false] at hc
      rcases hc with rfl | rfl | rfl | rfl <;> rfl
    have hclose : ∀ c ∈ [((BrokerOp.channelClose, c1) : Call), (.connectionClose, c2)],
        c.1.isDeclareOrBind = false := by
      intro c hc
      simp only [List.mem_cons, List.mem_singleton, List.not_mem_nil, or_false] at hc
      rcases hc with rfl | rfl <;> rfl
    cases err with
    | none =>
      exfalso
      rw [h] at hmem
      rcases List.mem_append.mp hmem with hm | hm
      · rcases List.mem_append.mp hm with hm | hm
        · have := hsetup _ hm
          simp [hop] at this
        · have := hshape _ hm
          simp at this
      · have := hclose _ hm
        simp [hop] at this
    | some e1 =>
      obtain ⟨pre1, op1, hadd, hpre1⟩ := hshape
      have hfull : (initPublisher X r b order).2.2 =
          (setupCalls r ++ pre1) ++ (op1, some e1) :: [((BrokerOp.channelClose, c1) : Call),
            (.connectionClose, c2)] := by
        rw [h, hadd]
        simp only [List.append_assoc, List.singleton_append]
      rw [hsplit] at hfull
      obtain ⟨_, hx, hpost⟩ := split_at_unique
        (fun c : Call => c.1.isDeclareOrBind = true ∧ c.2 ≠ none) _ _ _ _ _ _ hfull
        ⟨hop, by simp⟩
        (fun y hy hP => by
          rcases List.mem_append.mp hy with hm | hm
          · have := hsetup y hm
            simp [hP.1] at this
          · exact hP.2 (hpre1 y hm))
        (fun y hy hP => by
          have := hclose y hy
          simp [hP.1] at this)
      have he : e = e1 := by
        have := congrArg Prod.snd hx
        simpa using this
      refine ⟨by rw [h, he], by rw [hpost]; rfl, fun c hc => ?_, hdel⟩
      rw [hpost] at hc
      exact hclose c hc

/-- Witness for C7: the broker rejects the delay queue of `orders`; the instant tier is
in place, the delay exchange is declared, and the run ends with the two closes. -/
theorem initPublisher_aborts_on_first_failure_witness :
    (initPublisher sampleExternals freshRetrier delayQueueRejected ordersOrder).2.2 =
      (setupCalls freshRetrier ++
        (routeOps sampleExternals "instant" "orders").map (fun op => (op, none)) ++
        [(.exchangeDeclare "orders_delay_exchange" "fanout" true false false false none,
          none)]) ++
      (.queueDeclare "orders_delay_queue" true false false false
          (some [("x-dead-letter-exchange", "orders_instant_exchange")]),
        some "PRECONDITION_FAILED") ::
      [(.channelClose, none), (.connectionClose, none)] ∧
    (BrokerOp.queueDeclare "orders_delay_queue" true false false false
      (some [("x-dead-letter-exchange", "orders_instant_exchange")])).isDeclareOrBind = true ∧
    (initPublisher sampleExternals freshRetrier delayQueueRejected ordersOrder).2.1 =
      some "PRECONDITION_FAILED" := by
  have hsplit : (initPublisher sampleExternals freshRetrier delayQueueRejected
      ordersOrder).2.2 =
      (setupCalls freshRetrier ++
        (routeOps sampleExternals "instant" "orders").map (fun op => (op, none)) ++
        [(.exchangeDeclare "orders_delay_exchange" "fanout" true false false false none,
          none)]) ++
      (.queueDeclare "orders_delay_queue" true false false false
          (some [("x-dead-letter-exchange", "orders_instant_exchange")]),
        some "PRECONDITION_FAILED") ::
      [(.channelClose, none), (.connectionClose, none)] := by decide
  exact ⟨hsplit, rfl,
    (initPublisher_aborts_on_first_failure sampleExternals freshRetrier delayQueueRejected
      ordersOrder _ _ _ _ hsplit rfl).1⟩

/-! ## Start-up and the fail-fast guard -/

/-- C5, the claim as stated fails: `RunPublisher` returns an error (the connection is
refused) after it has stored the dialer; the handler returned by `Retrier` then does
not panic: it invokes the wrapped handler and publishes. -/
theorem retrier_runs_after_failed_RunPublisher :
    (RunPublisher sampleExternals freshRetrier connectionRefused ordersOrder).2.1 =
      some "connection refused" ∧
    Retrier sampleExternals
        (RunPublisher sampleExternals freshRetrier connectionRefused ordersOrder).1
        healthyPublisher alwaysRetry firstAttempt =
      (.returned 1,
        [.handlerCall firstAttempt, .acquire 0,
          .encode { MessageVal := [7], MessageHeaders := [("route", "orders")], ctx := 0,
                    RetryCount := 1 },
          .publish { Exchange := "orders_delay_exchange",
                     Publishing := { Expiration := "200", Body := [1, 7] } },
          .pubClose, .logError "error retrying message" none]) := by
  refine ⟨by decide, by decide⟩

/-- The guard of line 51, both ways: the handler returned by `Retrier` ends in a panic
with no effect exactly when the dialer is unset; otherwise the wrapped handler runs. -/
theorem Retrier_fails_fast_iff (X : Externals) (r : RabbitMQRetry)
    (b : PublisherBehaviour) (handler : Handler) (event : Event) :
    (Retrier X r b handler event = (.panicked, []) ↔ r.dialer = none) ∧
    (r.dialer ≠ none → Effect.handlerCall event ∈ (Retrier X r b handler event).2) := by
  cases hd : r.dialer with
  | none => simp [Retrier, hd]
  | some d =>
    have hne : r.dialer ≠ none := by simp [hd]
    have hmem : Effect.handlerCall event ∈ (Retrier X r b handler event).2 := by
      by_cases hs : handler event = X.RetryMessage
      · cases hout : (retry X r b event).1 with
        | returned err =>
          rw [Retrier_of_retry_returned X r b handler event err hne hs hout]
          simp
        | panicked =>
          rw [Retrier_of_retry_panicked X r b handler event hne hs hout]
          simp
      · rw [Retrier_of_other_status X r b handler event hne hs]
        simp
    refine ⟨⟨fun h => ?_, fun h => by simp at h⟩, fun _ => hmem⟩
    rw [h] at hmem
    simp at hmem

/-- What `initPublisher` does to the dialer: either the creation of the dialer failed,
which the trace records, and the retrier is unchanged, or the dialer was created, which
the trace records too, and it is stored whatever happens next. -/
theorem initPublisher_dialer (X : Externals) (r : RabbitMQRetry) (b : BrokerBehaviour)
    (order : String → List String) :
    ((initPublisher X r b order).2.2.any isFailedNewDialer = true ∧
      ((.newDialer r.hosts, none) : Call) ∉ (initPublisher X r b order).2.2 ∧
      (initPublisher X r b order).1 = r ∧
      ∃ e, (initPublisher X r b order).2.1 = some e) ∨
    ((initPublisher X r b order).2.2.any isFailedNewDialer = false ∧
      ((.newDialer r.hosts, none) : Call) ∈ (initPublisher X r b order).2.2 ∧
      (initPublisher X r b order).1.dialer = some { urls := r.hosts }) := by
  rcases initPublisher_cases X r b order with ⟨e1, h⟩ | ⟨e1, h⟩ | ⟨e1, c1, h⟩ |
    ⟨err, added, c1, c2, h, hops, _, _⟩
  · rw [h]
    exact Or.inl ⟨by simp [isFailedNewDialer], by simp, rfl, e1, rfl⟩
  · rw [h]
    exact Or.inr ⟨by simp [isFailedNewDialer], by simp, rfl⟩
  · rw [h]
    exact Or.inr ⟨by simp [isFailedNewDialer], by simp, rfl⟩
  · rw [h]
    refine Or.inr ⟨?_, by simp [setupCalls], rfl⟩
    rw [Bool.eq_false_iff]
    intro hany
    obtain ⟨c, hc, hfail⟩ := List.any_eq_true.mp hany
    simp only [setupCalls, List.mem_append, List.mem_cons, List.mem_singleton,
      List.not_mem_nil, or_false] at hc
    rcases hc with ((rfl | rfl | rfl | rfl) | hadd) | (rfl | rfl)
    any_goals simp [isFailedNewDialer] at hfail
    have hdecl := hops c hadd
    obtain ⟨op, res⟩ := c
    cases op <;> simp [BrokerOp.isDeclareOrBind] at hdecl <;>
      simp [isFailedNewDialer] at hfail

theorem RunConsumers_dialer (X : Externals) (r : RabbitMQRetry) (b : BrokerBehaviour)
    (order : List String) (handler : Handler) :
    (RunConsumers X r b order handler).1.dialer = r.dialer := by
  unfold RunConsumers
  split
  · rfl
  · rfl

theorem PublicOp_apply_dialer (X : Externals) (r : RabbitMQRetry) (op : PublicOp) :
    (op.apply X r).dialer = none ↔ r.dialer = none ∧ op.createsNoDialer X r = true := by
  cases op with
  | runPublisher b order =>
    simp only [PublicOp.apply, PublicOp.createsNoDialer, RunPublisher]
    rcases initPublisher_dialer X r b order with ⟨hany, _, hr, _⟩ | ⟨hany, _, hd⟩
    · rw [hr, hany]
      simp
    · rw [hd, hany]
      simp
  | runConsumers b order handler =>
    simp only [PublicOp.apply, PublicOp.createsNoDialer, RunConsumers_dialer]
    simp
  | retrier b handler event =>
    simp [PublicOp.apply, PublicOp.createsNoDialer]

theorem foldl_apply_dialer (X : Externals) (ops : List PublicOp) :
    ∀ r : RabbitMQRetry, (ops.foldl (PublicOp.apply X) r).dialer = none ↔
      r.dialer = none ∧ noDialerCreated X r ops = true := by
  induction ops with
  | nil =>
    intro r
    simp [noDialerCreated]
  | cons op rest ih =>
    intro r
    rw [List.foldl_cons, ih, PublicOp_apply_dialer]
    simp only [noDialerCreated, Bool.and_eq_true]
    exact and_assoc

theorem noDialerCreated_of_no_RunPublisher (X : Externals) (ops : List PublicOp) :
    ∀ r : RabbitMQRetry, (∀ op ∈ ops, ∀ bb order, op ≠ .runPublisher bb order) →
      noDialerCreated X r ops = true := by
  induction ops with
  | nil => intro r _; rfl
  | cons op rest ih =>
    intro r h
    simp only [noDialerCreated, Bool.and_eq_true]
    refine ⟨?_, ih _ (fun o ho => h o (List.mem_cons_of_mem _ ho))⟩
    cases op with
    | runPublisher b order => exact absurd rfl (h _ (List.mem_cons_self _ _) b order)
    | runConsumers b order handler => rfl
    | retrier b handler event => rfl

/-- C5 (amended): for a retrier built by `NewRabbitRetrier` and then taken through any
sequence of `RunPublisher`, `RunConsumers` and `Retrier` calls, the handler returned by
`Retrier` fails fast (it panics without invoking the wrapped handler and without any
publisher effect) if and only if no `RunPublisher` of the sequence got past the creation
of the dialer; in particular it fails fast when `RunPublisher` was never called.
Otherwise the wrapped handler is invoked: a `RunPublisher` that created the dialer stores
it whatever it returns afterwards, an error included, and the handler then does not
fail fast. -/
theorem retrier_fails_fast_iff_no_dialer_created (X : Externals) (hosts : List String)
    (queueConfig : QueueConfig) (logger : Option Logger) (ops : List PublicOp)
    (b : PublisherBehaviour) (handler : Handler) (event : Event) :
    (Retrier X (ops.foldl (PublicOp.apply X) (NewRabbitRetrier hosts queueConfig logger))
        b handler event = (.panicked, []) ↔
      noDialerCreated X (NewRabbitRetrier hosts queueConfig logger) ops = true) ∧
    ((∀ op ∈ ops, ∀ bb order, op ≠ .runPublisher bb order) →
      Retrier X (ops.foldl (PublicOp.apply X) (NewRabbitRetrier hosts queueConfig logger))
        b handler event = (.panicked, [])) ∧
    (noDialerCreated X (NewRabbitRetrier hosts queueConfig logger) ops = false →
      Effect.handlerCall event ∈
        (Retrier X (ops.foldl (PublicOp.apply X) (NewRabbitRetrier hosts queueConfig logger))
          b handler event).2) ∧
    (∀ (r : RabbitMQRetry) (bb : BrokerBehaviour) (order : String → List String),
      ((.newDialer r.hosts, none) : Call) ∈ (RunPublisher X r bb order).2.2 →
      (RunPublisher X r bb order).1.dialer = some { urls := r.hosts } ∧
      Effect.handlerCall event ∈
        (Retrier X (RunPublisher X r bb order).1 b handler event).2) := by
  have hfresh : (NewRabbitRetrier hosts queueConfig logger).dialer = none := rfl
  have hiff : Retrier X (ops.foldl (PublicOp.apply X)
      (NewRabbitRetrier hosts queueConfig logger)) b handler event = (.panicked, []) ↔
      noDialerCreated X (NewRabbitRetrier hosts queueConfig logger) ops = true := by
    rw [(Retrier_fails_fast_iff X _ b handler event).1, foldl_apply_dialer]
    simp [hfresh]
  refine ⟨hiff, fun hnone => ?_, fun hfalse => ?_, fun r bb order hmem => ?_⟩
  · exact hiff.mpr (noDialerCreated_of_no_RunPublisher X ops _ hnone)
  · apply (Retrier_fails_fast_iff X _ b handler event).2
    intro hd
    have := ((foldl_apply_dialer X ops _).mp hd).2
    rw [hfalse] at this
    exact absurd this (by simp)
  · unfold RunPublisher at hmem ⊢
    rcases initPublisher_dialer X r bb order with ⟨_, hnot, _, _⟩ | ⟨_, _, hd⟩
    · exact absurd hmem hnot
    · refine ⟨hd, (Retrier_fails_fast_iff X _ b handler event).2 ?_⟩
      rw [hd]
      simp

/-- Witness for C5 (amended): consumers started, a `RunPublisher` on a broker where no
dialer can be created, and an earlier handler invocation leave the guard closed; one
`RunPublisher` on a broker that refuses the connection opens it although it returns an
error. -/
theorem retrier_fails_fast_iff_no_dialer_created_witness :
    noDialerCreated sampleExternals freshRetrier
      [.runConsumers healthyBroker ["orders"] alwaysDone,
        .runPublisher dialerRefused ordersOrder,
        .retrier healthyPublisher alwaysRetry firstAttempt] = true ∧
    Retrier sampleExternals
      (List.foldl (PublicOp.apply sampleExternals) freshRetrier
        [.runConsumers healthyBroker ["orders"] alwaysDone,
          .runPublisher dialerRefused ordersOrder,
          .retrier healthyPublisher alwaysRetry firstAttempt])
      healthyPublisher alwaysRetry firstAttempt = (.panicked, []) ∧
    noDialerCreated sampleExternals freshRetrier
      [.runPublisher connectionRefused ordersOrder] = false ∧
    (RunPublisher sampleExternals freshRetrier connectionRefused ordersOrder).2.1 =
      some "connection refused" ∧
    Effect.handlerCall firstAttempt ∈
      (Retrier sampleExternals
        (List.foldl (PublicOp.apply sampleExternals) freshRetrier
          [.runPublisher connectionRefused ordersOrder])
        healthyPublisher alwaysRetry firstAttempt).2 := by
  have hclosed : noDialerCreated sampleExternals freshRetrier
      [.runConsumers healthyBroker ["orders"] alwaysDone,
        .runPublisher dialerRefused ordersOrder,
        .retrier healthyPublisher alwaysRetry firstAttempt] = true := by decide
  have hopen : noDialerCreated sampleExternals freshRetrier
      [.runPublisher connectionRefused ordersOrder] = false := by decide
  exact ⟨hclosed,
    (retrier_fails_fast_iff_no_dialer_created sampleExternals ["amqp://localhost"] ordersConfig
      none _ healthyPublisher alwaysRetry firstAttempt).1.mpr hclosed,
    hopen, by decide,
    (retrier_fails_fast_iff_no_dialer_created sampleExternals ["amqp://localhost"] ordersConfig
      none _ healthyPublisher alwaysRetry firstAttempt).2.2.1 hopen⟩

/-! ## The handler field -/

theorem initPublisher_handler (X : Externals) (r : RabbitMQRetry) (b : BrokerBehaviour)
    (order : String → List String) :
    (initPublisher X r b order).1.handler = r.handler := by
  rcases initPublisher_cases X r b order with ⟨e1, h⟩ | ⟨e1, h⟩ | ⟨e1, c1, h⟩ |
    ⟨err, added, c1, c2, h, _, _, _⟩ <;> rw [h]

theorem RunConsumers_handler (X : Externals) (r : RabbitMQRetry) (b : BrokerBehaviour)
    (order : List String) (handler : Handler) :
    (RunConsumers X r b order handler).1.handler = r.handler := by
  unfold RunConsumers
  split
  · rfl
  · rfl

theorem PublicOp_apply_handler (X : Externals) (r : RabbitMQRetry) (op : PublicOp) :
    (op.apply X r).handler = r.handler := by
  cases op with
  | runPublisher b order => exact initPublisher_handler X r b order
  | runConsumers b order handler => exact RunConsumers_handler X r b order handler
  | retrier b handler event => rfl

theorem foldl_apply_handler (X : Externals) (ops : List PublicOp) :
    ∀ r : RabbitMQRetry, (ops.foldl (PublicOp.apply X) r).handler = r.handler := by
  induction ops with
  | nil => intro r; rfl
  | cons op rest ih =>
    intro r
    rw [List.foldl_cons, ih, PublicOp_apply_handler]

/-- C10: the `handler` field is unset after `NewRabbitRetrier` and after every sequence
of `RunPublisher`, `RunConsumers` (which receives a handler) and `Retrier` calls;
`HandleEvent` on such a retrier panics on every event, with no effect and no status. -/
theorem handler_field_never_set (X : Externals) (hosts : List String)
    (queueConfig : QueueConfig) (logger : Option Logger) (ops : List PublicOp)
    (b : PublisherBehaviour) (event : Event) :
    (NewRabbitRetrier hosts queueConfig logger).handler = none ∧
    (ops.foldl (PublicOp.apply X) (NewRabbitRetrier hosts queueConfig logger)).handler = none ∧
    HandleEvent X (ops.foldl (PublicOp.apply X) (NewRabbitRetrier hosts queueConfig logger))
      b event = (.panicked, []) := by
  have h : (ops.foldl (PublicOp.apply X)
      (NewRabbitRetrier hosts queueConfig logger)).handler = none := by
    rw [foldl_apply_handler]
    rfl
  refine ⟨rfl, h, ?_⟩
  unfold HandleEvent
  rw [h]

/-! ## The topology a successful `initPublisher` declares -/

theorem filter_flatMap_nil {α β : Type} (p : β → Bool) (f : α → List β) :
    ∀ l : List α, (∀ x ∈ l, (f x).filter p = []) → (l.flatMap f).filter p = [] := by
  intro l
  induction l with
  | nil => intro _; rfl
  | cons x xs ih =>
    intro h
    rw [List.flatMap_cons, List.filter_append, h x (List.mem_cons_self _ _),
      ih (fun y hy => h y (List.mem_cons_of_mem _ hy))]
    rfl

theorem filter_flatMap_unique {α β : Type} (p : β → Bool) (f : α → List β) (a : α) :
    ∀ l : List α, l.Nodup → a ∈ l → (∀ x ∈ l, x ≠ a → (f x).filter p = []) →
      (l.flatMap f).filter p = (f a).filter p := by
  intro l
  induction l with
  | nil => intro _ ha; exact absurd ha (List.not_mem_nil _)
  | cons x xs ih =>
    intro hnodup ha hother
    rw [List.flatMap_cons, List.filter_append]
    have hx : x ∉ xs := (List.nodup_cons.mp hnodup).1
    have hxs : xs.Nodup := (List.nodup_cons.mp hnodup).2
    by_cases hxa : x = a
    · subst hxa
      rw [filter_flatMap_nil p f xs (fun y hy => hother y (List.mem_cons_of_mem _ hy)
        (fun h => hx (h ▸ hy)))]
      exact List.append_nil _
    · have hmem : a ∈ xs := by
        rcases List.mem_cons.mp ha with h | h
        · exact absurd h.symm hxa
        · exact h
      rw [hother x (List.mem_cons_self _ _) hxa,
        ih hxs hmem (fun y hy => hother y (List.mem_cons_of_mem _ hy))]
      rfl

theorem queueTypes_nodup : queueTypes.Nodup := by decide

/-- Filtering the complete provisioning by a property that only operations of one
route and queue type have leaves the matching operations of that iteration. -/
theorem filter_topologyOps (X : Externals) (order : String → List String)
    (routes : List String) (p : BrokerOp → Bool) (route queueType : String)
    (hnodup : routes.Nodup)
    (horder : ∀ t ∈ queueTypes, (order t).Perm routes)
    (hroute : route ∈ routes) (htier : queueType ∈ queueTypes)
    (hsel : ∀ r1 ∈ routes, ∀ t1 ∈ queueTypes, ∀ op ∈ routeOps X t1 r1, p op = true →
      r1 = route ∧ t1 = queueType) :
    (topologyOps X order).filter p = (routeOps X queueType route).filter p := by
  unfold topologyOps
  rw [filter_flatMap_unique p _ queueType queueTypes queueTypes_nodup htier]
  · apply filter_flatMap_unique p _ route
    · exact (horder queueType htier).nodup_iff.mpr hnodup
    · exact (horder queueType htier).mem_iff.mpr hroute
    · intro r1 hr1 hne
      rw [List.filter_eq_nil_iff]
      intro op hop hp
      exact hne (hsel r1 ((horder queueType htier).mem_iff.mp hr1) queueType htier op hop hp).1
  · intro t1 ht1 hne
    apply filter_flatMap_nil
    intro r1 hr1
    rw [List.filter_eq_nil_iff]
    intro op hop hp
    exact hne (hsel r1 ((horder t1 ht1).mem_iff.mp hr1) t1 ht1 op hop hp).2

/-- The operations of a successful `initPublisher`, in order. -/
theorem initPublisher_ops_of_success (X : Externals) (r : RabbitMQRetry)
    (b : BrokerBehaviour) (order : String → List String)
    (hok : (initPublisher X r b order).2.1 = none) :
    (initPublisher X r b order).2.2.map Prod.fst =
      (setupCalls r).map Prod.fst ++ topologyOps X order ++
        [.channelClose, .connectionClose] := by
  rcases initPublisher_cases X r b order with ⟨e1, h⟩ | ⟨e1, h⟩ | ⟨e1, c1, h⟩ |
    ⟨err, added, c1, c2, h, _, _, hfull⟩
  · rw [h] at hok
    simp at hok
  · rw [h] at hok
    simp at hok
  · rw [h] at hok
    simp at hok
  · rw [h] at hok ⊢
    simp only at hok
    rw [hfull hok]
    simp only [List.map_append, List.map_map, List.map_cons, List.map_nil]
    have hid : (Prod.fst ∘ fun op : BrokerOp => (op, (none : Option Error))) = id := rfl
    rw [hid, List.map_id]

theorem declaresExchange_isDeclareOrBind (name : String) (op : BrokerOp)
    (h : BrokerOp.declaresExchange name op = true) : op.isDeclareOrBind = true := by
  cases op <;> simp [BrokerOp.declaresExchange, BrokerOp.isDeclareOrBind] at h ⊢

theorem declaresQueue_isDeclareOrBind (name : String) (op : BrokerOp)
    (h : BrokerOp.declaresQueue name op = true) : op.isDeclareOrBind = true := by
  cases op <;> simp [BrokerOp.declaresQueue, BrokerOp.isDeclareOrBind] at h ⊢

theorem binds_isDeclareOrBind (queue exchange : String) (op : BrokerOp)
    (h : BrokerOp.binds queue exchange op = true) : op.isDeclareOrBind = true := by
  cases op <;> simp [BrokerOp.binds, BrokerOp.isDeclareOrBind] at h ⊢

theorem filter_setup_and_close (r : RabbitMQRetry) (p : BrokerOp → Bool)
    (core : List BrokerOp)
    (hp : ∀ op, p op = true → op.isDeclareOrBind = true) :
    ((setupCalls r).map Prod.fst ++ core ++
        [BrokerOp.channelClose, BrokerOp.connectionClose]).filter p = core.filter p := by
  have hsetup : ((setupCalls r).map Prod.fst).filter p = [] := by
    rw [List.filter_eq_nil_iff]
    intro op hop h
    have hd := hp op h
    simp only [setupCalls, List.map_cons, List.map_nil, List.mem_cons, List.mem_singleton,
      List.not_mem_nil, or_false] at hop
    rcases hop with rfl | rfl | rfl | rfl <;> simp [BrokerOp.isDeclareOrBind] at hd
  have hclose : ([BrokerOp.channelClose, BrokerOp.connectionClose]).filter p = [] := by
    rw [List.filter_eq_nil_iff]
    intro op hop h
    have hd := hp op h
    simp only [List.mem_cons, List.mem_singleton, List.not_mem_nil, or_false] at hop
    rcases hop with rfl | rfl <;> simp [BrokerOp.isDeclareOrBind] at hd
  rw [List.filter_append, List.filter_append, hsetup, hclose, List.nil_append,
    List.append_nil]

/-- C4: a successful `initPublisher` issues, for every configured route and every queue
type among "instant", "delay" and "dead_letter", exactly one declaration of that
exchange (fanout, durable), exactly one declaration of that queue (durable, not
auto-delete, not exclusive) and exactly one binding of that queue to that exchange with
an empty routing key; the queue arguments are `x-dead-letter-exchange` set to the
instant exchange of the same route for the delay type and nil for the two other types.
The routes are the keys of a map (no duplicates), each pass ranges over them in some
order, and the names of the naming scheme do not collide over the configured routes and
the three queue types. -/
theorem initPublisher_declares_topology (X : Externals) (r : RabbitMQRetry)
    (b : BrokerBehaviour) (order : String → List String)
    (hnodup : r.queueConfig.routes.Nodup)
    (horder : ∀ t ∈ ["instant", "delay", "dead_letter"],
      (order t).Perm r.queueConfig.routes)
    (hexchange : ∀ r1 ∈ r.queueConfig.routes, ∀ t1 ∈ ["instant", "delay", "dead_letter"],
      ∀ r2 ∈ r.queueConfig.routes, ∀ t2 ∈ ["instant", "delay", "dead_letter"],
      X.constructExchangeName r1 t1 = X.constructExchangeName r2 t2 → r1 = r2 ∧ t1 = t2)
    (hqueue : ∀ r1 ∈ r.queueConfig.routes, ∀ t1 ∈ ["instant", "delay", "dead_letter"],
      ∀ r2 ∈ r.queueConfig.routes, ∀ t2 ∈ ["instant", "delay", "dead_letter"],
      X.constructQueueName r1 t1 = X.constructQueueName r2 t2 → r1 = r2 ∧ t1 = t2)
    (hok : (initPublisher X r b order).2.1 = none)
    (route : String) (hroute : route ∈ r.queueConfig.routes)
    (queueType : String)
    (htier : queueType = "instant" ∨ queueType = "delay" ∨ queueType = "dead_letter") :
    ((initPublisher X r b order).2.2.map Prod.fst).filter
        (BrokerOp.declaresExchange (X.constructExchangeName route queueType)) =
      [.exchangeDeclare (X.constructExchangeName route queueType) "fanout" true false
        false false none] ∧
    ((initPublisher X r b order).2.2.map Prod.fst).filter
        (BrokerOp.declaresQueue (X.constructQueueName route queueType)) =
      [.queueDeclare (X.constructQueueName route queueType) true false false false
        (if queueType = "delay" then
          some [("x-dead-letter-exchange", X.constructExchangeName route "instant")]
        else none)] ∧
    ((initPublisher X r b order).2.2.map Prod.fst).filter
        (BrokerOp.binds (X.constructQueueName route queueType)
          (X.constructExchangeName route queueType)) =
      [.queueBind (X.constructQueueName route queueType) ""
        (X.constructExchangeName route queueType) false
        (if queueType = "delay" then
          some [("x-dead-letter-exchange", X.constructExchangeName route "instant")]
        else none)] := by
  have htypes : queueTypes = ["instant", "delay", "dead_letter"] := rfl
  have hfanout : ExchangeFanout = "fanout" := rfl
  have hargs : queueArgs X queueType route =
      (if queueType = "delay" then
        some [("x-dead-letter-exchange", X.constructExchangeName route "instant")]
      else none) := rfl
  have htier1 : queueType ∈ queueTypes := by
    rw [htypes]
    rcases htier with h | h | h <;> simp [h]
  rw [← htypes] at horder hexchange hqueue
  rw [initPublisher_ops_of_success X r b order hok, ← hargs, ← hfanout]
  refine ⟨?_, ?_, ?_⟩
  · rw [filter_setup_and_close r _ _ (declaresExchange_isDeclareOrBind _)]
    rw [filter_topologyOps X order r.queueConfig.routes _ route queueType hnodup horder
      hroute htier1]
    · simp [routeOps, BrokerOp.declaresExchange]
    · intro r1 hr1 t1 ht1 op hop hp
      simp only [routeOps, List.mem_cons, List.mem_singleton, List.not_mem_nil,
        or_false] at hop
      rcases hop with rfl | rfl | rfl
      · simp only [BrokerOp.declaresExchange, decide_eq_true_eq] at hp
        exact hexchange r1 hr1 t1 ht1 route hroute queueType htier1 hp
      · simp [BrokerOp.declaresExchange] at hp
      · simp [BrokerOp.declaresExchange] at hp
  · rw [filter_setup_and_close r _ _ (declaresQueue_isDeclareOrBind _)]
    rw [filter_topologyOps X order r.queueConfig.routes _ route queueType hnodup horder
      hroute htier1]
    · simp [routeOps, BrokerOp.declaresQueue]
    · intro r1 hr1 t1 ht1 op hop hp
      simp only [routeOps, List.mem_cons, List.mem_singleton, List.not_mem_nil,
        or_false] at hop
      rcases hop with rfl | rfl | rfl
      · simp [BrokerOp.declaresQueue] at hp
      · simp only [BrokerOp.declaresQueue, decide_eq_true_eq] at hp
        exact hqueue r1 hr1 t1 ht1 route hroute queueType htier1 hp
      · simp [BrokerOp.declaresQueue] at hp
  · rw [filter_setup_and_close r _ _ (binds_isDeclareOrBind _ _)]
    rw [filter_topologyOps X order r.queueConfig.routes _ route queueType hnodup horder
      hroute htier1]
    · simp [routeOps, BrokerOp.binds]
    · intro r1 hr1 t1 ht1 op hop hp
      simp only [routeOps, List.mem_cons, List.mem_singleton, List.not_mem_nil,
        or_false] at hop
      rcases hop with rfl | rfl | rfl
      · simp [BrokerOp.binds] at hp
      · simp [BrokerOp.binds] at hp
      · simp only [BrokerOp.binds, decide_eq_true_eq] at hp
        exact hqueue r1 hr1 t1 ht1 route hroute queueType htier1 hp.1

/-- Witness for C4, Scenario C: routes `a` and `b`, ranged over in different orders;
each of the three queues of `a` is declared once, only the delay queue pointing at the
instant exchange of `a`, and the dead_letter exchange of `b` is declared and bound
once. -/
theorem initPublisher_declares_topology_witness :
    twoRoutesRetrier.queueConfig.routes.Nodup ∧
    (∀ t ∈ ["instant", "delay", "dead_letter"],
      (twoRoutesOrder t).Perm twoRoutesRetrier.queueConfig.routes) ∧
    (∀ r1 ∈ twoRoutesRetrier.queueConfig.routes, ∀ t1 ∈ ["instant", "delay", "dead_letter"],
      ∀ r2 ∈ twoRoutesRetrier.queueConfig.routes, ∀ t2 ∈ ["instant", "delay", "dead_letter"],
      sampleExternals.constructExchangeName r1 t1 =
        sampleExternals.constructExchangeName r2 t2 → r1 = r2 ∧ t1 = t2) ∧
    (∀ r1 ∈ twoRoutesRetrier.queueConfig.routes, ∀ t1 ∈ ["instant", "delay", "dead_letter"],
      ∀ r2 ∈ twoRoutesRetrier.queueConfig.routes, ∀ t2 ∈ ["instant", "delay", "dead_letter"],
      sampleExternals.constructQueueName r1 t1 =
        sampleExternals.constructQueueName r2 t2 → r1 = r2 ∧ t1 = t2) ∧
    (initPublisher sampleExternals twoRoutesRetrier healthyBroker twoRoutesOrder).2.1 = none ∧
    "a" ∈ twoRoutesRetrier.queueConfig.routes ∧
    "b" ∈ twoRoutesRetrier.queueConfig.routes ∧
    ((initPublisher sampleExternals twoRoutesRetrier healthyBroker
        twoRoutesOrder).2.2.map Prod.fst).filter (BrokerOp.declaresQueue "a_instant_queue") =
      [.queueDeclare "a_instant_queue" true false false false none] ∧
    ((initPublisher sampleExternals twoRoutesRetrier healthyBroker
        twoRoutesOrder).2.2.map Prod.fst).filter (BrokerOp.declaresQueue "a_delay_queue") =
      [.queueDeclare "a_delay_queue" true false false false
        (some [("x-dead-letter-exchange", "a_instant_exchange")])] ∧
    ((initPublisher sampleExternals twoRoutesRetrier healthyBroker
        twoRoutesOrder).2.2.map Prod.fst).filter
        (BrokerOp.declaresQueue "a_dead_letter_queue") =
      [.queueDeclare "a_dead_letter_queue" true false false false none] ∧
    ((initPublisher sampleExternals twoRoutesRetrier healthyBroker
        twoRoutesOrder).2.2.map Prod.fst).filter
        (BrokerOp.declaresExchange "b_dead_letter_exchange") =
      [.exchangeDeclare "b_dead_letter_exchange" "fanout" true false false false none] ∧
    ((initPublisher sampleExternals twoRoutesRetrier healthyBroker
        twoRoutesOrder).2.2.map Prod.fst).filter
        (BrokerOp.binds "b_dead_letter_queue" "b_dead_letter_exchange") =
      [.queueBind "b_dead_letter_queue" "" "b_dead_letter_exchange" false none] := by
  have hnodup : twoRoutesRetrier.queueConfig.routes.Nodup := by decide
  have horder : ∀ t ∈ ["instant", "delay", "dead_letter"],
      (twoRoutesOrder t).Perm twoRoutesRetrier.queueConfig.routes := by decide
  have hexchange : ∀ r1 ∈ twoRoutesRetrier.queueConfig.routes,
      ∀ t1 ∈ ["instant", "delay", "dead_letter"],
      ∀ r2 ∈ twoRoutesRetrier.queueConfig.routes, ∀ t2 ∈ ["instant", "delay", "dead_letter"],
      sampleExternals.constructExchangeName r1 t1 =
        sampleExternals.constructExchangeName r2 t2 → r1 = r2 ∧ t1 = t2 := by decide
  have hqueue : ∀ r1 ∈ twoRoutesRetrier.queueConfig.routes,
      ∀ t1 ∈ ["instant", "delay", "dead_letter"],
      ∀ r2 ∈ twoRoutesRetrier.queueConfig.routes, ∀ t2 ∈ ["instant", "delay", "dead_letter"],
      sampleExternals.constructQueueName r1 t1 =
        sampleExternals.constructQueueName r2 t2 → r1 = r2 ∧ t1 = t2 := by decide
  have hok : (initPublisher sampleExternals twoRoutesRetrier healthyBroker
      twoRoutesOrder).2.1 = none := by decide
  have key := initPublisher_declares_topology sampleExternals twoRoutesRetrier healthyBroker
    twoRoutesOrder hnodup horder hexchange hqueue hok
  have ha : "a" ∈ twoRoutesRetrier.queueConfig.routes := by decide
  have hb : "b" ∈ twoRoutesRetrier.queueConfig.routes := by decide
  exact ⟨hnodup, horder, hexchange, hqueue, hok, ha, hb,
    (key "a" ha "instant" (Or.inl rfl)).2.1,
    (key "a" ha "delay" (Or.inr (Or.inl rfl))).2.1,
    (key "a" ha "dead_letter" (Or.inr (Or.inr rfl))).2.1,
    (key "b" hb "dead_letter" (Or.inr (Or.inr rfl))).1,
    (key "b" hb "dead_letter" (Or.inr (Or.inr rfl))).2.2⟩

end rabbitmq
